import Mathlib

/-!
Verification development for the chat pipeline of the monitoring-dashboard
repository: the server-side stream relay (src/app/api/chat/route.ts, POST)
and the client-side incremental SSE/event parser with its conversation state
(src/app/chat/page.tsx, handleSend / handleStop / handleNewConversation).

The embedding is shallow:
* JavaScript dynamic values produced by JSON.parse are modelled by the
  inductive type Json, together with JS truthiness, property access,
  optional chaining, and string coercion.
* The client parser is a state machine over ConvState; network text chunks
  are List Char, byte chunks are List Nat.  The stateful TextDecoder used by
  both the relay and the client is modelled by the WHATWG incremental UTF-8
  decoder state machine, so chunk-boundary properties are stated at the
  byte level.
* React setState calls are modelled as in-order functional updates of
  ConvState; threadIdRef / the threadId state variable are collapsed into
  the single field threadId (the code keeps them synchronized at every
  write), and localStorage is the field storedThreadId.
-/

namespace ChatUI

/-- Model of a JavaScript value obtained from JSON.parse.  Numbers keep
their source lexeme (used only for JS string coercion, which this
development never exercises on numbers) together with a precomputed
reads-as-zero bit: a JSON number is falsy exactly when the double it reads
as is zero, that is, when its mantissa is 0 or the literal underflows to
zero (see jsNumIsZero). -/
inductive Json where
  | null : Json
  | bool : Bool → Json
  | num : String → Bool → Json
  | str : String → Json
  | arr : List Json → Json
  | obj : List (String × Json) → Json

/-- JS truthiness of a value. -/
def truthy : Json → Bool
  | Json.null => false
  | Json.bool b => b
  | Json.num _ isZero => !isZero
  | Json.str s => !s.isEmpty
  | Json.arr _ => true
  | Json.obj _ => true

/-- Truthiness of a possibly-undefined value (none models undefined). -/
def truthyOpt : Option Json → Bool
  | none => false
  | some j => truthy j

/-- JS property access j.k; undefined is none.  JSON.parse keeps the last
binding for duplicate object keys, hence the reverse lookup.  Property
access on non-objects yields undefined (the string and array exotic
properties such as length are not probed by the code under study). -/
def jsGet (j : Json) (k : String) : Option Json :=
  match j with
  | Json.obj fields => (fields.reverse.find? (fun p => p.1 == k)).map (fun p => p.2)
  | _ => none

/-- JS element access j[0], as used by data.choices?.[0]. -/
def jsIndex0 (j : Json) : Option Json :=
  match j with
  | Json.arr xs => xs.head?
  | Json.obj _ => jsGet j ("0")
  | Json.str s => (s.toList.head?).map (fun c => Json.str (String.mk [c]))
  | _ => none

/-- Optional chaining o?.f: short-circuits to undefined on undefined and on
null, otherwise accesses. -/
def optChain (o : Option Json) (f : Json → Option Json) : Option Json :=
  match o with
  | none => none
  | some Json.null => none
  | some j => f j

/-- JS a || b on possibly-undefined values: a when truthy, otherwise b. -/
def jsOrJ (a b : Option Json) : Option Json :=
  if truthyOpt a then a else b

mutual

/-- JS String() coercion of a value, as performed by msg.content + value.
Arrays join their elements with commas; null and undefined elements join as
the empty string, as in JS. -/
def jsToString : Json → String
  | Json.null => "null"
  | Json.bool true => "true"
  | Json.bool false => "false"
  | Json.num lexeme _ => lexeme
  | Json.str s => s
  | Json.obj _ => "[object Object]"
  | Json.arr xs => String.intercalate ("," : String) (jsToStringElems xs)

/-- String coercion of array elements for the join. -/
def jsToStringElems : List Json → List String
  | [] => []
  | Json.null :: xs => ("" : String) :: jsToStringElems xs
  | x :: xs => jsToString x :: jsToStringElems xs

end

/-! JSON.parse, modelled as a fuel-indexed recursive-descent parser over
List Char following RFC 8259 (the grammar implemented by JSON.parse).
Failure (none) corresponds to JSON.parse throwing.  Lone-surrogate \u
escapes, which JS strings can hold but Lean Char cannot, are mapped to NUL;
no input in this development contains them. -/

/-- JSON insignificant whitespace. -/
def isJsonWs (c : Char) : Bool :=
  c = ' ' || c = '\t' || c = '\n' || c = '\r'

/-- Value of one hex digit of a \u escape, written over code points: digits
48-57, lowercase 97-102, uppercase 65-70. -/
def hexVal (c : Char) : Option Nat :=
  let n := c.toNat
  if 48 ≤ n ∧ n ≤ 57 then some (n - 48)
  else if 97 ≤ n ∧ n ≤ 102 then some (n - 87)
  else if 65 ≤ n ∧ n ≤ 70 then some (n - 55)
  else none

/-- Parse the body of a JSON string after the opening quote: returns the
decoded characters and the remaining input after the closing quote.
Unescaped control characters are rejected, as by JSON.parse.  A high
surrogate \u escape followed directly by a low surrogate \u escape
combines into the astral character they encode, as in JS; a lone
surrogate escape, which a JS string can hold but a Lean Char cannot, falls
back to NUL via Char.ofNat (no input in this development contains one). -/
def parseJStr : Nat → List Char → Option (List Char × List Char)
  | 0, _ => none
  | _ + 1, [] => none
  | fuel + 1, c :: cs =>
    if c = '"' then some ([], cs)
    else if c = '\\' then
      match cs with
      | [] => none
      | e :: cs1 =>
        let cont := fun (ch : Char) (rest : List Char) =>
          (parseJStr fuel rest).map (fun p => (ch :: p.1, p.2))
        if e = '"' then cont '"' cs1
        else if e = '\\' then cont '\\' cs1
        else if e = '/' then cont '/' cs1
        else if e = 'b' then cont '\x08' cs1
        else if e = 'f' then cont '\x0c' cs1
        else if e = 'n' then cont '\n' cs1
        else if e = 'r' then cont '\r' cs1
        else if e = 't' then cont '\t' cs1
        else if e = 'u' then
          match cs1 with
          | h1 :: h2 :: h3 :: h4 :: cs2 =>
            match hexVal h1, hexVal h2, hexVal h3, hexVal h4 with
            | some v1, some v2, some v3, some v4 =>
              let v := ((v1 * 16 + v2) * 16 + v3) * 16 + v4
              if 0xd800 ≤ v ∧ v ≤ 0xdbff then
                match cs2 with
                | '\\' :: 'u' :: g1 :: g2 :: g3 :: g4 :: cs3 =>
                  match hexVal g1, hexVal g2, hexVal g3, hexVal g4 with
                  | some w1, some w2, some w3, some w4 =>
                    let w := ((w1 * 16 + w2) * 16 + w3) * 16 + w4
                    if 0xdc00 ≤ w ∧ w ≤ 0xdfff then
                      cont (Char.ofNat
                        (0x10000 + (v - 0xd800) * 0x400 + (w - 0xdc00))) cs3
                    else cont (Char.ofNat v) cs2
                  | _, _, _, _ => cont (Char.ofNat v) cs2
                | _ => cont (Char.ofNat v) cs2
              else cont (Char.ofNat v) cs2
            | _, _, _, _ => none
          | _ => none
        else none
    else if c.toNat < 0x20 then none
    else (parseJStr fuel cs).map (fun p => (c :: p.1, p.2))

/-- The natural number denoted by a string of decimal digits. -/
def digitsToNat (ds : List Char) : Nat :=
  ds.foldl (fun a c => a * 10 + (c.toNat - 48)) 0

/-- Whether the number literal mantissa × 10^e becomes (JS) zero when read
as a double: exactly when the mantissa is 0, or the magnitude is at most
2^(-1075), half the smallest subnormal (that tie rounds to the even 0).
Every other literal reads as a non-zero double (overflow gives the truthy
Infinity), so truthiness of a parsed number depends only on this bit. -/
def jsNumIsZero (mantissa : Nat) (e : Int) : Bool :=
  if mantissa = 0 then true
  else if e < 0 then decide (mantissa * 2 ^ 1075 ≤ 10 ^ (-e).toNat)
  else false

/-- Parse a JSON number at the head of the input (first char is a digit or
a minus sign); returns (lexeme, reads-as-zero, rest).  Per the RFC 8259
grammar an integer part starting with 0 is just the digit 0, so a literal
such as 05 leaves the second digit unconsumed and the enclosing parse
fails, as JSON.parse does. -/
def parseJNum (cs : List Char) : Option (String × Bool × List Char) :=
  let (sign, cs1) :=
    match cs with
    | '-' :: rest => (['-'], rest)
    | _ => (([] : List Char), cs)
  match cs1 with
  | [] => none
  | d :: ds =>
    if !d.isDigit then none
    else
      let (intPart, cs2) :=
        if d = '0' then ((['0'] : List Char), ds)
        else (cs1.takeWhile Char.isDigit, cs1.dropWhile Char.isDigit)
      let (fracPart, cs3) :=
        match cs2 with
        | '.' :: rest =>
          (('.' :: rest.takeWhile Char.isDigit), rest.dropWhile Char.isDigit)
        | _ => (([] : List Char), cs2)
      if fracPart = ['.'] then none
      else
        let (expPart, cs4) :=
          match cs3 with
          | e :: rest =>
            if e = 'e' || e = 'E' then
              let (esign, rest1) :=
                match rest with
                | s :: rest1 => if s = '+' || s = '-' then ([s], rest1) else (([] : List Char), rest)
                | [] => (([] : List Char), rest)
              let digits := rest1.takeWhile Char.isDigit
              if digits.isEmpty then (none, cs3)
              else
                let ev : Int :=
                  if esign = ['-'] then -(digitsToNat digits : Int)
                  else (digitsToNat digits : Int)
                (some (e :: (esign ++ digits), ev), rest1.dropWhile Char.isDigit)
            else (none, cs3)
          | [] => (none, cs3)
        let fracDigits := fracPart.filter Char.isDigit
        let mantissa := digitsToNat (intPart ++ fracDigits)
        let expVal : Int :=
          (match expPart with
           | some p => p.2
           | none => 0) - (fracDigits.length : Int)
        let lexeme :=
          sign ++ intPart ++ fracPart ++
            (match expPart with
             | some p => p.1
             | none => ([] : List Char))
        some (String.mk lexeme, jsNumIsZero mantissa expVal, cs4)

mutual

/-- Parse one JSON value after optional leading whitespace. -/
def parseVal : Nat → List Char → Option (Json × List Char)
  | 0, _ => none
  | fuel + 1, cs =>
    let cs := cs.dropWhile isJsonWs
    match cs with
    | [] => none
    | '"' :: rest =>
      (parseJStr (rest.length + 1) rest).map (fun p => (Json.str (String.mk p.1), p.2))
    | 't' :: rest =>
      if rest.take 3 = ['r', 'u', 'e'] then some (Json.bool true, rest.drop 3) else none
    | 'f' :: rest =>
      if rest.take 4 = ['a', 'l', 's', 'e'] then some (Json.bool false, rest.drop 4) else none
    | 'n' :: rest =>
      if rest.take 3 = ['u', 'l', 'l'] then some (Json.null, rest.drop 3) else none
    | '[' :: rest =>
      let r2 := rest.dropWhile isJsonWs
      (match r2 with
       | ']' :: r3 => some (Json.arr [], r3)
       | _ => (parseElems fuel r2).map (fun p => (Json.arr p.1, p.2)))
    | '\x7b' :: rest =>
      let r2 := rest.dropWhile isJsonWs
      (match r2 with
       | '\x7d' :: r3 => some (Json.obj [], r3)
       | _ => (parseMembers fuel r2).map (fun p => (Json.obj p.1, p.2)))
    | c :: _ =>
      if c = '-' || c.isDigit then
        (parseJNum cs).map (fun p => (Json.num p.1 p.2.1, p.2.2))
      else none

/-- Parse the elements of a non-empty JSON array, including the closing
bracket. -/
def parseElems : Nat → List Char → Option (List Json × List Char)
  | 0, _ => none
  | fuel + 1, cs =>
    (parseVal fuel cs).bind (fun p =>
      let cs2 := p.2.dropWhile isJsonWs
      match cs2 with
      | ',' :: cs3 => (parseElems fuel cs3).map (fun q => (p.1 :: q.1, q.2))
      | ']' :: cs3 => some ([p.1], cs3)
      | _ => none)

/-- Parse the members of a non-empty JSON object, including the closing
brace. -/
def parseMembers : Nat → List Char → Option (List (String × Json) × List Char)
  | 0, _ => none
  | fuel + 1, cs =>
    let cs := cs.dropWhile isJsonWs
    match cs with
    | '"' :: rest =>
      (parseJStr (rest.length + 1) rest).bind (fun k =>
        let cs2 := k.2.dropWhile isJsonWs
        match cs2 with
        | ':' :: cs3 =>
          (parseVal fuel cs3).bind (fun v =>
            let cs4 := v.2.dropWhile isJsonWs
            match cs4 with
            | ',' :: cs5 =>
              (parseMembers fuel cs5).map (fun q => ((String.mk k.1, v.1) :: q.1, q.2))
            | '\x7d' :: cs5 => some ([(String.mk k.1, v.1)], cs5)
            | _ => none)
        | _ => none)
    | _ => none

end

/-- JSON.parse: parse one value and require only whitespace afterwards.
The fuel 2 * (length + 1) bounds the recursion depth: along any chain of
recursive calls at least one input character is consumed for every two
fuel decrements. -/
def jsonParse (cs : List Char) : Option Json :=
  match parseVal ((cs.length + 1) * 2) cs with
  | some (j, rest) => if (rest.dropWhile isJsonWs).isEmpty then some j else none
  | none => none

/-! Conversation state (src/app/chat/page.tsx).  setMessages et al. are
functional updates applied in order; threadIdRef and the threadId state
variable, which the code writes together at every mutation site, are the
single field threadId; localStorage's watson_thread_id slot is
storedThreadId. -/

/-- Message role. -/
inductive Role where
  | user : Role
  | assistant : Role
deriving DecidableEq

/-- A chat message (timestamps omitted: no claim concerns them). -/
structure Message where
  id : Nat
  role : Role
  content : String
deriving DecidableEq

/-- The LoadingState type of the page. -/
inductive LoadingState where
  | idle : LoadingState
  | thinking : LoadingState
  | toolCall : LoadingState
  | streaming : LoadingState
deriving DecidableEq

/-- Client conversation state.  toolCallName keeps the raw JS value passed
to setToolCallName. -/
structure ConvState where
  messages : List Message
  isLoading : Bool
  loadingState : LoadingState
  toolCallName : Option Json
  threadId : Option String
  storedThreadId : Option String
  error : Option String

/-- The initial page state: empty log, idle, nothing stored. -/
def initialState : ConvState :=
  { messages := [], isLoading := false, loadingState := LoadingState.idle,
    toolCallName := none, threadId := none, storedThreadId := none, error := none }

/-- setMessages(prev.map(msg  msg.id === id ? append : msg)). -/
def appendToMsg (aid : Nat) (s : ConvState) (txt : String) : ConvState :=
  { s with messages :=
      s.messages.map (fun m =>
        if m.id = aid then { m with content := m.content ++ txt } else m) }

/-- Content of the message with the given id, if present. -/
def getMsgContent (aid : Nat) (s : ConvState) : Option String :=
  (s.messages.find? (fun m => m.id == aid)).map (fun m => m.content)

/-- JS truthiness of a string-or-null slot (empty string is falsy). -/
def truthyS : Option String → Bool
  | none => false
  | some t => !t.isEmpty

/-- data.choices?.[0]?.delta?.content (page.tsx line 161). -/
def deltaContent (data : Json) : Option Json :=
  optChain (optChain (optChain (jsGet data ("choices")) jsIndex0)
    (fun x => jsGet x ("delta"))) (fun x => jsGet x ("content"))

/-- data.data?.content. -/
def dataDataContent (data : Json) : Option Json :=
  optChain (jsGet data ("data")) (fun x => jsGet x ("content"))

/-- data.event === tag (strict equality against a string literal). -/
def eventIs (data : Json) (tag : String) : Bool :=
  match jsGet data ("event") with
  | some (Json.str e) => e == tag
  | _ => false

/-- data.data?.tool_name || data.data?.name || data.tool_name
(page.tsx line 202). -/
def toolNameCandidate (data : Json) : Option Json :=
  jsOrJ (optChain (jsGet data ("data")) (fun x => jsGet x ("tool_name")))
    (jsOrJ (optChain (jsGet data ("data")) (fun x => jsGet x ("name")))
      (jsGet data ("tool_name")))

/-- data.thread_id || data.data?.thread_id || data.context?.thread_id
(page.tsx lines 231-234). -/
def threadCandidate (data : Json) : Option Json :=
  jsOrJ (jsGet data ("thread_id"))
    (jsOrJ (optChain (jsGet data ("data")) (fun x => jsGet x ("thread_id")))
      (optChain (jsGet data ("context")) (fun x => jsGet x ("thread_id"))))

/-- The one-time thread-identifier latch (page.tsx lines 222-243):
currentThreadId = threadIdRef.current || threadId || localStorage, and only
when that is falsy and the candidate is a truthy string are the ref, the
state and localStorage all set to it. -/
def latchThread (data : Json) (s : ConvState) : ConvState :=
  if truthyS s.threadId || truthyS s.storedThreadId then s
  else
    match threadCandidate data with
    | some (Json.str t) =>
      if t.isEmpty then s
      else { s with threadId := some t, storedThreadId := some t }
    | _ => s

/-- Clause of page.tsx line 161: OpenAI-compatible nested delta content. -/
def clDelta (aid : Nat) (d : Json) (s : ConvState) : ConvState :=
  if truthyOpt (deltaContent d) then
    appendToMsg aid s (jsToString ((deltaContent d).getD Json.null))
  else s

/-- Clause of page.tsx line 173: top-level content field. -/
def clContent (aid : Nat) (d : Json) (s : ConvState) : ConvState :=
  if truthyOpt (jsGet d ("content")) then
    appendToMsg aid s (jsToString ((jsGet d ("content")).getD Json.null))
  else s

/-- Clause of page.tsx line 184: message.delta event with nested content. -/
def clMsgDelta (aid : Nat) (d : Json) (s : ConvState) : ConvState :=
  if eventIs d ("message.delta") && truthyOpt (dataDataContent d) then
    appendToMsg aid { s with loadingState := LoadingState.streaming }
      (jsToString ((dataDataContent d).getD Json.null))
  else s

/-- Clause of page.tsx line 196: thinking and planning events. -/
def clThinking (d : Json) (s : ConvState) : ConvState :=
  if eventIs d ("run.step.thinking") || eventIs d ("planning") then
    { s with loadingState := LoadingState.thinking }
  else s

/-- Clause of page.tsx line 201: tool-call start with a resolvable name. -/
def clToolStart (d : Json) (s : ConvState) : ConvState :=
  if eventIs d ("run.step.started") then
    if truthyOpt (toolNameCandidate d) then
      { s with loadingState := LoadingState.toolCall,
               toolCallName := some ((toolNameCandidate d).getD Json.null) }
    else s
  else s

/-- Clause of page.tsx line 209: step completed or step delta with content. -/
def clStepDone (d : Json) (s : ConvState) : ConvState :=
  if (eventIs d ("run.step.completed") || eventIs d ("run.step.delta")) &&
      (truthyOpt (dataDataContent d) || truthyOpt (jsGet d ("content"))) then
    { s with loadingState := LoadingState.streaming }
  else s

/-- Clause of page.tsx line 217: message or run completion. -/
def clCompleted (d : Json) (s : ConvState) : ConvState :=
  if eventIs d ("message.completed") || eventIs d ("run.completed") then
    { s with loadingState := LoadingState.idle, toolCallName := none }
  else s

/-- The content and phase conditionals of page.tsx lines 160-220, applied
in source order. -/
def applyClauses (aid : Nat) (d : Json) (s : ConvState) : ConvState :=
  clCompleted d (clStepDone d (clToolStart d (clThinking d
    (clMsgDelta aid d (clContent aid d (clDelta aid d s))))))

/-- Apply one successfully parsed, non-null record to the state: the
content/phase clauses followed by the thread-identifier latch (page.tsx
lines 160-243). -/
def applyRecord (aid : Nat) (data : Json) (s : ConvState) : ConvState :=
  latchThread data (applyClauses aid data s)

/-- Apply one data: payload.  JSON.parse failure falls back to appending
the raw payload text when non-empty (page.tsx lines 244-256).  A parsed
top-level null also lands in that fallback: data.choices then throws a
TypeError, which the same catch turns into the plain-text append. -/
def applyData (aid : Nat) (s : ConvState) (payload : List Char) : ConvState :=
  match jsonParse payload with
  | some Json.null =>
    if payload.isEmpty then s else appendToMsg aid s (String.mk payload)
  | some data => applyRecord aid data s
  | none =>
    if payload.isEmpty then s else appendToMsg aid s (String.mk payload)

/-- JS String.prototype.trim whitespace (WhiteSpace plus LineTerminator). -/
def isJsWs (c : Char) : Bool :=
  let n := c.toNat
  (9 ≤ n && n ≤ 13) || n = 0x20 || n = 0xa0 || n = 0x1680 ||
  (0x2000 ≤ n && n ≤ 0x200a) || n = 0x2028 || n = 0x2029 ||
  n = 0x202f || n = 0x205f || n = 0x3000 || n = 0xfeff

/-- line.trim(). -/
def jsTrim (l : List Char) : List Char :=
  ((l.dropWhile isJsWs).reverse.dropWhile isJsWs).reverse

/-- Process the complete lines of one network chunk in order (the for loop
of page.tsx lines 142-267).  A [DONE] payload is the break: it returns the
state unchanged and drops the remaining lines of this chunk only. -/
def runLines (aid : Nat) : ConvState → List (List Char) → ConvState
  | s, [] => s
  | s, l :: ls =>
    let t := jsTrim l
    if t.isEmpty then runLines aid s ls
    else if t.head? = some ':' then runLines aid s ls
    else if t.take 6 = ("data: ").toList then
      if t.drop 6 = ("[DONE]").toList then s
      else runLines aid (applyData aid s (t.drop 6)) ls
    else runLines aid (appendToMsg aid s (String.mk t ++ ("\n" : String))) ls

/-- buffer.split('\n') followed by buffer = lines.pop(): the complete lines
in order, and the residual after the last newline. -/
def splitBuf : List Char → List (List Char) × List Char
  | [] => ([], [])
  | c :: cs =>
    let p := splitBuf cs
    if c = '\n' then (([] : List Char) :: p.1, p.2)
    else
      match p.1 with
      | [] => ([], c :: p.2)
      | l :: ls => ((c :: l) :: ls, p.2)

/-- One iteration of the read loop on a decoded text chunk: append to the
buffer, split off the complete lines, keep the residual, process the lines.
The state is (conversation state, buffer). -/
def processChunk (aid : Nat) (p : ConvState × List Char) (chunk : List Char) :
    ConvState × List Char :=
  let q := splitBuf (p.2 ++ chunk)
  (runLines aid p.1 q.1, q.2)

/-- Feed a sequence of decoded text chunks. -/
def feedChunks (aid : Nat) (p : ConvState × List Char) (chunks : List (List Char)) :
    ConvState × List Char :=
  chunks.foldl (processChunk aid) p

/-! The stateful TextDecoder (decode with stream: true), modelled by the
WHATWG UTF-8 decoder state machine.  Bytes and scalar values are Nat.
The boundary registers implement the overlong/surrogate/out-of-range
exclusions; bitwise operations of the specification are written with
division and remainder by powers of two (b and 0x3F = b % 64 for a
continuation byte, and so on). -/

/-- Incremental UTF-8 decoder state: bytes needed, bytes seen, the code
point under construction, and the admissible range of the next byte. -/
structure DecState where
  needed : Nat
  seen : Nat
  cp : Nat
  lo : Nat
  hi : Nat
deriving DecidableEq

/-- Fresh decoder state. -/
def decInit : DecState :=
  { needed := 0, seen := 0, cp := 0, lo := 0x80, hi := 0xbf }

/-- Decode one byte from the clean state: ASCII, a lead byte, or an
invalid byte replaced by U+FFFD. -/
def utf8Start (b : Nat) : List Nat × DecState :=
  if b ≤ 0x7f then ([b], decInit)
  else if 0xc2 ≤ b ∧ b ≤ 0xdf then
    ([], { needed := 1, seen := 0, cp := b - 0xc0, lo := 0x80, hi := 0xbf })
  else if 0xe0 ≤ b ∧ b ≤ 0xef then
    ([], { needed := 2, seen := 0, cp := b - 0xe0,
           lo := if b = 0xe0 then 0xa0 else 0x80,
           hi := if b = 0xed then 0x9f else 0xbf })
  else if 0xf0 ≤ b ∧ b ≤ 0xf4 then
    ([], { needed := 3, seen := 0, cp := b - 0xf0,
           lo := if b = 0xf0 then 0x90 else 0x80,
           hi := if b = 0xf4 then 0x8f else 0xbf })
  else ([0xfffd], decInit)

/-- Decode one byte: either a continuation byte is absorbed, or the
sequence is in error and the byte is reprocessed from the clean state after
emitting U+FFFD. -/
def utf8Step (st : DecState) (b : Nat) : List Nat × DecState :=
  if st.needed = 0 then utf8Start b
  else if st.lo ≤ b ∧ b ≤ st.hi then
    let cp := st.cp * 64 + (b - 0x80)
    if st.seen + 1 = st.needed then ([cp], decInit)
    else ([], { needed := st.needed, seen := st.seen + 1, cp := cp, lo := 0x80, hi := 0xbf })
  else
    let p := utf8Start b
    (0xfffd :: p.1, p.2)

/-- Decode a byte chunk, threading the decoder state. -/
def decodeBytes : DecState → List Nat → List Nat × DecState
  | st, [] => ([], st)
  | st, b :: bs =>
    let p := utf8Step st b
    let q := decodeBytes p.2 bs
    (p.1 ++ q.1, q.2)

/-- UTF-8 encoding of one scalar value (TextEncoder on one character). -/
def encodeChar (c : Nat) : List Nat :=
  if c ≤ 0x7f then [c]
  else if c ≤ 0x7ff then [0xc0 + c / 64, 0x80 + c % 64]
  else if c ≤ 0xffff then [0xe0 + c / 4096, 0x80 + (c / 64) % 64, 0x80 + c % 64]
  else [0xf0 + c / 262144, 0x80 + (c / 4096) % 64, 0x80 + (c / 64) % 64, 0x80 + c % 64]

/-- UTF-8 encoding of a sequence of scalar values. -/
def encodeAll (s : List Nat) : List Nat :=
  s.flatMap encodeChar

/-- A Unicode scalar value: in range and not a surrogate. -/
def ValidScalar (c : Nat) : Prop :=
  c < 0x110000 ∧ (c < 0xd800 ∨ 0xdfff < c)

instance (c : Nat) : Decidable (ValidScalar c) := by
  unfold ValidScalar
  infer_instance

/-- The BOM layer of a default TextDecoder (ignoreBOM is false): the very
first code point of the whole stream, when it is U+FEFF, is removed; the
flag records whether the first code point has already been seen. -/
def stripBom : Bool → List Nat → List Nat × Bool
  | true, out => (out, true)
  | false, [] => ([], false)
  | false, c :: rest => if c = 0xfeff then (rest, true) else (c :: rest, true)

/-- State of a default-constructed TextDecoder: the incremental UTF-8
decoder state plus the BOM-seen flag. -/
structure TDecState where
  inner : DecState
  bomSeen : Bool
deriving DecidableEq

/-- Fresh TextDecoder state. -/
def tdecInit : TDecState :=
  { inner := decInit, bomSeen := false }

/-- decode(chunk, stream: true) of a default TextDecoder: run the
incremental UTF-8 decoder, then drop a stream-leading U+FEFF. -/
def tdecode (st : TDecState) (bs : List Nat) : List Nat × TDecState :=
  let p := decodeBytes st.inner bs
  let q := stripBom st.bomSeen p.1
  (q.1, { inner := p.2, bomSeen := q.2 })

/-- One byte-level iteration of the client read loop: decode the incoming
bytes statefully, then run the text-level chunk processing. -/
def feedBytesStep (aid : Nat) (p : (ConvState × List Char) × TDecState)
    (chunk : List Nat) : (ConvState × List Char) × TDecState :=
  let d := tdecode p.2 chunk
  (processChunk aid p.1 (d.1.map Char.ofNat), d.2)

/-- Feed byte chunks to the client parser from a fresh exchange (empty
buffer, fresh decoder). -/
def feedBytes (aid : Nat) (s : ConvState) (chunks : List (List Nat)) :
    (ConvState × List Char) × TDecState :=
  chunks.foldl (feedBytesStep aid) ((s, ([] : List Char)), tdecInit)

/-! The exchange as a whole (handleSend), from the point where the user
message is accepted, covering the three ways the read loop can end. -/

/-- How an exchange terminates after the listed chunks were processed:
the stream ends normally, the caller aborts (handleStop), or reading fails
mid-stream with an error whose message is carried. -/
inductive EndKind where
  | closed : EndKind
  | aborted : EndKind
  | failed : String → EndKind

/-- State updates of handleSend before the read loop: push the user
message, enter loading/thinking, clear tool name and error; after the
response is accepted, push the empty assistant message. -/
def startExchange (uid aid : Nat) (txt : String) (s : ConvState) : ConvState :=
  { s with
    messages := s.messages ++
      [{ id := uid, role := Role.user, content := txt },
       { id := aid, role := Role.assistant, content := ("" : String) }],
    isLoading := true, loadingState := LoadingState.thinking,
    toolCallName := none, error := none }

/-- The finally block: loading off, phase idle, tool name cleared. -/
def finallyReset (s : ConvState) : ConvState :=
  { s with isLoading := false, loadingState := LoadingState.idle, toolCallName := none }

/-- Feeding phase of one exchange: start, then process every received
chunk. -/
def exchangeFeed (uid aid : Nat) (txt : String) (s : ConvState)
    (chunks : List (List Char)) : ConvState × List Char :=
  feedChunks aid (startExchange uid aid txt s, ([] : List Char)) chunks

/-- Flush of the residual buffer at normal stream end: if buffer.trim()
is truthy, the raw buffer is appended. -/
def flushResidual (aid : Nat) (p : ConvState × List Char) : ConvState :=
  if (jsTrim p.2).isEmpty then p.1 else appendToMsg aid p.1 (String.mk p.2)

/-- The catch branch for a non-abort error: record err.message (or the
fallback text when it is empty) and remove every message with the
assistant id. -/
def failExchange (aid : Nat) (m : String) (s : ConvState) : ConvState :=
  { s with
    error := some (if m.isEmpty then ("Failed to send message" : String) else m),
    messages := s.messages.filter (fun msg => msg.id != aid) }

/-- Run one exchange: start, feed the chunks, then terminate.  On normal
close the non-blank residual buffer is appended raw; on abort the catch
returns early (no error, no removal) and only the finally block runs; on a
mid-stream failure the error is recorded and the assistant message is
removed.  In every case the finally block then resets the loading state. -/
def runExchange (uid aid : Nat) (txt : String) (s : ConvState)
    (chunks : List (List Char)) : EndKind → ConvState
  | EndKind.closed => finallyReset (flushResidual aid (exchangeFeed uid aid txt s chunks))
  | EndKind.aborted => finallyReset (exchangeFeed uid aid txt s chunks).1
  | EndKind.failed m => finallyReset (failExchange aid m (exchangeFeed uid aid txt s chunks).1)

/-- handleNewConversation: clear the log, both thread-identifier slots
(including durable storage) and the error banner. -/
def handleNewConversation (s : ConvState) : ConvState :=
  { s with messages := [], threadId := none, storedThreadId := none, error := none }

/-! The server-side stream relay (src/app/api/chat/route.ts, POST). -/

/-- The body of the relay's ReadableStream start callback: for each
upstream chunk, decode it with the stateful TextDecoder, re-encode with a
fresh TextEncoder, and enqueue, in upstream order.  Returns the list of
enqueued byte chunks. -/
def relayGo : TDecState → List (List Nat) → List (List Nat)
  | _, [] => []
  | st, c :: cs =>
    let d := tdecode st c
    encodeAll d.1 :: relayGo d.2 cs

/-- The relay on a whole upstream chunk sequence, from a fresh default
TextDecoder. -/
def relayChunks (chunks : List (List Nat)) : List (List Nat) :=
  relayGo tdecInit chunks

/-- Outcome of the relay endpoint before any stream is opened: either an
early JSON error response (produced without contacting the token provider
or the upstream service), or the exchange proceeds to token acquisition and
the upstream request.  reject carries the status code and the error field
of the JSON body. -/
inductive RelayResult where
  | reject : Nat → String → RelayResult
  | forward : Json → Option Json → RelayResult

/-- The request-validation phase of POST (route.ts lines 7-21): parse the
JSON body and destructure message and thread_id.  A body that fails to
parse throws in request.json(); a null body throws in the destructuring;
both are caught and produce the 500 response.  A falsy message produces
the 400 response.  Only otherwise does the handler go on to
getAccessToken and the upstream fetch. -/
def relayPost (rawBody : List Char) : RelayResult :=
  match jsonParse rawBody with
  | none => RelayResult.reject 500 ("Internal server error")
  | some Json.null => RelayResult.reject 500 ("Internal server error")
  | some body =>
    let message := jsGet body ("message")
    if !truthyOpt message then RelayResult.reject 400 ("Message is required")
    else RelayResult.forward (message.getD Json.null) (jsGet body ("thread_id"))

/-- Append t to the content of every message with the given id (the shape
of every message-list mutation the parser performs). -/
def appMap (aid : Nat) (t : String) (l : List Message) : List Message :=
  l.map (fun m => if m.id = aid then { m with content := m.content ++ t } else m)

/-- The text chunks produced by statefully decoding a sequence of byte
chunks with a default TextDecoder. -/
def charChunks : TDecState → List (List Nat) → List (List Char)
  | _, [] => []
  | st, c :: cs =>
    (tdecode st c).1.map Char.ofNat :: charChunks (tdecode st c).2 cs

/-! Lemmas: state fields untouched by the individual operations. -/

@[simp]
theorem appendToMsg_threadId (aid : Nat) (s : ConvState) (txt : String) :
    (appendToMsg aid s txt).threadId = s.threadId := rfl

@[simp]
theorem appendToMsg_storedThreadId (aid : Nat) (s : ConvState) (txt : String) :
    (appendToMsg aid s txt).storedThreadId = s.storedThreadId := rfl

@[simp]
theorem appendToMsg_error (aid : Nat) (s : ConvState) (txt : String) :
    (appendToMsg aid s txt).error = s.error := rfl

@[simp]
theorem appendToMsg_isLoading (aid : Nat) (s : ConvState) (txt : String) :
    (appendToMsg aid s txt).isLoading = s.isLoading := rfl

@[simp]
theorem latchThread_messages (d : Json) (s : ConvState) :
    (latchThread d s).messages = s.messages := by
  unfold latchThread
  split
  · rfl
  · split <;> first | rfl | (split_ifs <;> rfl)

@[simp]
theorem latchThread_error (d : Json) (s : ConvState) :
    (latchThread d s).error = s.error := by
  unfold latchThread
  split
  · rfl
  · split <;> first | rfl | (split_ifs <;> rfl)

@[simp]
theorem latchThread_loadingState (d : Json) (s : ConvState) :
    (latchThread d s).loadingState = s.loadingState := by
  unfold latchThread
  split
  · rfl
  · split <;> first | rfl | (split_ifs <;> rfl)

@[simp]
theorem latchThread_toolCallName (d : Json) (s : ConvState) :
    (latchThread d s).toolCallName = s.toolCallName := by
  unfold latchThread
  split
  · rfl
  · split <;> first | rfl | (split_ifs <;> rfl)

@[simp]
theorem clDelta_threadId (aid : Nat) (d : Json) (s : ConvState) :
    (clDelta aid d s).threadId = s.threadId := by
  unfold clDelta; split_ifs <;> rfl

@[simp]
theorem clDelta_storedThreadId (aid : Nat) (d : Json) (s : ConvState) :
    (clDelta aid d s).storedThreadId = s.storedThreadId := by
  unfold clDelta; split_ifs <;> rfl

@[simp]
theorem clDelta_error (aid : Nat) (d : Json) (s : ConvState) :
    (clDelta aid d s).error = s.error := by
  unfold clDelta; split_ifs <;> rfl

@[simp]
theorem clContent_threadId (aid : Nat) (d : Json) (s : ConvState) :
    (clContent aid d s).threadId = s.threadId := by
  unfold clContent; split_ifs <;> rfl

@[simp]
theorem clContent_storedThreadId (aid : Nat) (d : Json) (s : ConvState) :
    (clContent aid d s).storedThreadId = s.storedThreadId := by
  unfold clContent; split_ifs <;> rfl

@[simp]
theorem clContent_error (aid : Nat) (d : Json) (s : ConvState) :
    (clContent aid d s).error = s.error := by
  unfold clContent; split_ifs <;> rfl

@[simp]
theorem clMsgDelta_threadId (aid : Nat) (d : Json) (s : ConvState) :
    (clMsgDelta aid d s).threadId = s.threadId := by
  unfold clMsgDelta; split_ifs <;> rfl

@[simp]
theorem clMsgDelta_storedThreadId (aid : Nat) (d : Json) (s : ConvState) :
    (clMsgDelta aid d s).storedThreadId = s.storedThreadId := by
  unfold clMsgDelta; split_ifs <;> rfl

@[simp]
theorem clMsgDelta_error (aid : Nat) (d : Json) (s : ConvState) :
    (clMsgDelta aid d s).error = s.error := by
  unfold clMsgDelta; split_ifs <;> rfl

@[simp]
theorem clThinking_threadId (d : Json) (s : ConvState) :
    (clThinking d s).threadId = s.threadId := by
  unfold clThinking; split_ifs <;> rfl

@[simp]
theorem clThinking_storedThreadId (d : Json) (s : ConvState) :
    (clThinking d s).storedThreadId = s.storedThreadId := by
  unfold clThinking; split_ifs <;> rfl

@[simp]
theorem clThinking_error (d : Json) (s : ConvState) :
    (clThinking d s).error = s.error := by
  unfold clThinking; split_ifs <;> rfl

@[simp]
theorem clThinking_messages (d : Json) (s : ConvState) :
    (clThinking d s).messages = s.messages := by
  unfold clThinking; split_ifs <;> rfl

@[simp]
theorem clToolStart_threadId (d : Json) (s : ConvState) :
    (clToolStart d s).threadId = s.threadId := by
  unfold clToolStart; split_ifs <;> rfl

@[simp]
theorem clToolStart_storedThreadId (d : Json) (s : ConvState) :
    (clToolStart d s).storedThreadId = s.storedThreadId := by
  unfold clToolStart; split_ifs <;> rfl

@[simp]
theorem clToolStart_error (d : Json) (s : ConvState) :
    (clToolStart d s).error = s.error := by
  unfold clToolStart; split_ifs <;> rfl

@[simp]
theorem clToolStart_messages (d : Json) (s : ConvState) :
    (clToolStart d s).messages = s.messages := by
  unfold clToolStart; split_ifs <;> rfl

@[simp]
theorem clStepDone_threadId (d : Json) (s : ConvState) :
    (clStepDone d s).threadId = s.threadId := by
  unfold clStepDone; split_ifs <;> rfl

@[simp]
theorem clStepDone_storedThreadId (d : Json) (s : ConvState) :
    (clStepDone d s).storedThreadId = s.storedThreadId := by
  unfold clStepDone; split_ifs <;> rfl

@[simp]
theorem clStepDone_error (d : Json) (s : ConvState) :
    (clStepDone d s).error = s.error := by
  unfold clStepDone; split_ifs <;> rfl

@[simp]
theorem clStepDone_messages (d : Json) (s : ConvState) :
    (clStepDone d s).messages = s.messages := by
  unfold clStepDone; split_ifs <;> rfl

@[simp]
theorem clCompleted_threadId (d : Json) (s : ConvState) :
    (clCompleted d s).threadId = s.threadId := by
  unfold clCompleted; split_ifs <;> rfl

@[simp]
theorem clCompleted_storedThreadId (d : Json) (s : ConvState) :
    (clCompleted d s).storedThreadId = s.storedThreadId := by
  unfold clCompleted; split_ifs <;> rfl

@[simp]
theorem clCompleted_error (d : Json) (s : ConvState) :
    (clCompleted d s).error = s.error := by
  unfold clCompleted; split_ifs <;> rfl

@[simp]
theorem clCompleted_messages (d : Json) (s : ConvState) :
    (clCompleted d s).messages = s.messages := by
  unfold clCompleted; split_ifs <;> rfl

theorem truthyS_of_ne (t : String) (h : t ≠ "") : truthyS (some t) = true := by
  have hf : t.isEmpty = false := by
    rw [Bool.eq_false_iff]
    intro hc
    exact h ((String.isEmpty_iff t).mp hc)
  simp [truthyS, hf]

theorem latchThread_of_truthy (d : Json) (s : ConvState)
    (h : truthyS s.threadId = true) : latchThread d s = s := by
  unfold latchThread
  rw [if_pos]
  rw [h]
  simp

theorem applyClauses_threadId (aid : Nat) (d : Json) (s : ConvState) :
    (applyClauses aid d s).threadId = s.threadId := by
  simp [applyClauses]

theorem applyClauses_storedThreadId (aid : Nat) (d : Json) (s : ConvState) :
    (applyClauses aid d s).storedThreadId = s.storedThreadId := by
  simp [applyClauses]

theorem applyClauses_error (aid : Nat) (d : Json) (s : ConvState) :
    (applyClauses aid d s).error = s.error := by
  simp [applyClauses]

theorem applyRecord_threadId_of_some (aid : Nat) (d : Json) (s : ConvState)
    (t : String) (h : s.threadId = some t) (ht : t ≠ "") :
    (applyRecord aid d s).threadId = some t ∧
      (applyRecord aid d s).storedThreadId = s.storedThreadId := by
  unfold applyRecord
  rw [latchThread_of_truthy]
  · exact ⟨by rw [applyClauses_threadId, h], applyClauses_storedThreadId aid d s⟩
  · rw [applyClauses_threadId, h]
    exact truthyS_of_ne t ht

theorem applyData_threadId_of_some (aid : Nat) (s : ConvState) (p : List Char)
    (t : String) (h : s.threadId = some t) (ht : t ≠ "") :
    (applyData aid s p).threadId = some t ∧
      (applyData aid s p).storedThreadId = s.storedThreadId := by
  unfold applyData
  split
  · split_ifs <;> simp [appendToMsg_threadId, appendToMsg_storedThreadId, h]
  · exact applyRecord_threadId_of_some aid _ s t h ht
  · split_ifs <;> simp [appendToMsg_threadId, appendToMsg_storedThreadId, h]

theorem runLines_threadId_of_some (aid : Nat) (ls : List (List Char)) :
    ∀ (s : ConvState) (t : String), s.threadId = some t → t ≠ "" →
      (runLines aid s ls).threadId = some t ∧
        (runLines aid s ls).storedThreadId = s.storedThreadId := by
  induction ls with
  | nil => intro s t h ht; exact ⟨h, rfl⟩
  | cons l ls ih =>
    intro s t h ht
    rw [runLines]
    split_ifs
    · exact ih s t h ht
    · exact ih s t h ht
    · exact ⟨h, rfl⟩
    · have hd := applyData_threadId_of_some aid s ((jsTrim l).drop 6) t h ht
      have := ih (applyData aid s ((jsTrim l).drop 6)) t hd.1 ht
      exact ⟨this.1, by rw [this.2, hd.2]⟩
    · have := ih (appendToMsg aid s (String.mk (jsTrim l) ++ ("\n" : String))) t
        (by rw [appendToMsg_threadId, h]) ht
      exact ⟨this.1, by rw [this.2, appendToMsg_storedThreadId]⟩

theorem feedChunks_nil (aid : Nat) (p : ConvState × List Char) :
    feedChunks aid p [] = p := rfl

theorem feedChunks_cons (aid : Nat) (p : ConvState × List Char) (c : List Char)
    (cs : List (List Char)) :
    feedChunks aid p (c :: cs) = feedChunks aid (processChunk aid p c) cs := rfl

theorem processChunk_fst (aid : Nat) (p : ConvState × List Char) (c : List Char) :
    (processChunk aid p c).1 = runLines aid p.1 (splitBuf (p.2 ++ c)).1 := rfl

theorem feedChunks_threadId_of_some (aid : Nat) (chunks : List (List Char)) :
    ∀ (p : ConvState × List Char) (t : String), p.1.threadId = some t → t ≠ "" →
      (feedChunks aid p chunks).1.threadId = some t ∧
        (feedChunks aid p chunks).1.storedThreadId = p.1.storedThreadId := by
  induction chunks with
  | nil => intro p t h ht; exact ⟨h, rfl⟩
  | cons c cs ih =>
    intro p t h ht
    rw [feedChunks_cons]
    have h1 := runLines_threadId_of_some aid (splitBuf (p.2 ++ c)).1 p.1 t h ht
    have h2 := ih (processChunk aid p c) t (by rw [processChunk_fst]; exact h1.1) ht
    refine ⟨h2.1, ?_⟩
    rw [h2.2, processChunk_fst]
    exact h1.2

theorem startExchange_threadId (uid aid : Nat) (txt : String) (s : ConvState) :
    (startExchange uid aid txt s).threadId = s.threadId := rfl

theorem startExchange_storedThreadId (uid aid : Nat) (txt : String) (s : ConvState) :
    (startExchange uid aid txt s).storedThreadId = s.storedThreadId := rfl

theorem finallyReset_threadId (s : ConvState) :
    (finallyReset s).threadId = s.threadId := rfl

theorem finallyReset_storedThreadId (s : ConvState) :
    (finallyReset s).storedThreadId = s.storedThreadId := rfl

theorem runExchange_threadId_of_some (uid aid : Nat) (txt : String) (s : ConvState)
    (chunks : List (List Char)) (ending : EndKind) (t : String)
    (h : s.threadId = some t) (ht : t ≠ "") :
    (runExchange uid aid txt s chunks ending).threadId = some t ∧
      (runExchange uid aid txt s chunks ending).storedThreadId = s.storedThreadId := by
  have h1 := feedChunks_threadId_of_some aid chunks (startExchange uid aid txt s, ([] : List Char))
    t (by rw [startExchange_threadId]; exact h) ht
  cases ending with
  | closed =>
    rw [runExchange, finallyReset_threadId, finallyReset_storedThreadId]
    unfold flushResidual
    split_ifs
    · exact ⟨h1.1, h1.2⟩
    · rw [appendToMsg_threadId, appendToMsg_storedThreadId]
      exact ⟨h1.1, h1.2⟩
  | aborted =>
    rw [runExchange, finallyReset_threadId, finallyReset_storedThreadId]
    exact ⟨h1.1, h1.2⟩
  | failed m =>
    rw [runExchange, finallyReset_threadId, finallyReset_storedThreadId]
    unfold failExchange
    exact ⟨h1.1, h1.2⟩

/-- C2: once the thread identifier is set (it is only ever set to a
non-empty string), no event of the same or a later exchange changes it or
the durable copy, whatever thread-identifier value that event presents;
only the explicit new-conversation reset clears it, and that reset also
clears durable storage. -/
theorem c2_thread_latch_immutable (uid aid : Nat) (txt : String) (s : ConvState)
    (chunks : List (List Char)) (ending : EndKind) (t : String)
    (h : s.threadId = some t) (ht : t ≠ "") :
    ((runExchange uid aid txt s chunks ending).threadId = some t ∧
      (runExchange uid aid txt s chunks ending).storedThreadId = s.storedThreadId) ∧
    ((handleNewConversation (runExchange uid aid txt s chunks ending)).threadId = none ∧
      (handleNewConversation (runExchange uid aid txt s chunks ending)).storedThreadId = none) :=
  ⟨runExchange_threadId_of_some uid aid txt s chunks ending t h ht, rfl, rfl⟩

/-- Witness for C2 at a concrete exchange whose stream presents a
different thread identifier. -/
theorem c2_thread_latch_immutable_witness :
    ((runExchange 1 2 ("hi")
        { initialState with threadId := some ("T") , storedThreadId := some ("T") }
        [("data: \x7b\"thread_id\":\"OTHER\"\x7d\n").toList] EndKind.closed).threadId
          = some ("T") ∧
      (runExchange 1 2 ("hi")
        { initialState with threadId := some ("T") , storedThreadId := some ("T") }
        [("data: \x7b\"thread_id\":\"OTHER\"\x7d\n").toList] EndKind.closed).storedThreadId
          = some ("T")) ∧
    ((handleNewConversation (runExchange 1 2 ("hi")
        { initialState with threadId := some ("T") , storedThreadId := some ("T") }
        [("data: \x7b\"thread_id\":\"OTHER\"\x7d\n").toList] EndKind.closed)).threadId
          = none ∧
      (handleNewConversation (runExchange 1 2 ("hi")
        { initialState with threadId := some ("T") , storedThreadId := some ("T") }
        [("data: \x7b\"thread_id\":\"OTHER\"\x7d\n").toList] EndKind.closed)).storedThreadId
          = none) :=
  c2_thread_latch_immutable 1 2 ("hi")
    { initialState with threadId := some ("T") , storedThreadId := some ("T") }
    [("data: \x7b\"thread_id\":\"OTHER\"\x7d\n").toList] EndKind.closed ("T") rfl
    (by decide)

/-- C5 (amended): a data: [DONE] line stops line processing for the
current network chunk: the sentinel itself changes nothing (no error, no
append), and the remaining lines of that chunk are dropped.  Lines arriving
in later network chunks of the exchange are processed again, which is what
the original claim ruled out (see the counterexample). -/
theorem c5_done_sentinel (aid : Nat) (s : ConvState) (post : List (List Char)) :
    runLines aid s (("data: [DONE]").toList :: post) = s := rfl

/-- Counterexample for C5 as stated: after data: [DONE], a line in a later
network chunk of the same exchange is still applied to conversation state
(the break only leaves the for loop over the current chunk's lines). -/
theorem c5_counterexample :
    getMsgContent 2 ((feedChunks 2
      ({ initialState with messages :=
          [{ id := 2, role := Role.assistant, content := ("" : String) }] }, [])
      [("data: [DONE]\n").toList]).1) = some ("") ∧
    getMsgContent 2 ((feedChunks 2
      ({ initialState with messages :=
          [{ id := 2, role := Role.assistant, content := ("" : String) }] }, [])
      [("data: [DONE]\n").toList, ("data: hello\n").toList]).1) = some ("hello") := by
  constructor <;> rfl

/-- C7: cancelling mid-stream after the partial content Processing your
was appended leaves the assistant message content exactly that string and
shows no error. -/
theorem c7_cancel_preserves_content :
    getMsgContent 2 (runExchange 1 2 ("hi") initialState
      [("data: \x7b\"content\":\"Processing your\"\x7d\n").toList] EndKind.aborted)
        = some ("Processing your") ∧
    (runExchange 1 2 ("hi") initialState
      [("data: \x7b\"content\":\"Processing your\"\x7d\n").toList] EndKind.aborted).error
        = none := by
  constructor <;> rfl

/-- C9 (amended): for every POST body that parses as JSON to a non-null
value on which field destructuring succeeds, a missing or empty (more
generally falsy) message field makes the relay answer 400 with the JSON
error body Message is required; by construction of reject, neither the
token provider nor the upstream service is contacted and no stream is
opened.  A JSON null body instead fails in the destructuring itself and is
answered 500 (see the counterexample). -/
theorem c9_reject_missing_message (raw : List Char) (body : Json)
    (hp : jsonParse raw = some body) (hn : body ≠ Json.null)
    (hm : truthyOpt (jsGet body ("message")) = false) :
    relayPost raw = RelayResult.reject 400 ("Message is required") := by
  unfold relayPost
  rw [hp]
  cases body with
  | null => exact absurd rfl hn
  | bool b => simp [hm]
  | num l z => simp [hm]
  | str s => simp [hm]
  | arr xs => simp [hm]
  | obj fs => simp [hm]

/-- Witness for C9 at the concrete body consisting of an empty JSON
object. -/
theorem c9_reject_missing_message_witness :
    relayPost (("\x7b\x7d").toList) = RelayResult.reject 400 ("Message is required") :=
  c9_reject_missing_message (("\x7b\x7d").toList) (Json.obj []) rfl
    (fun h => Json.noConfusion h) rfl

/-- Counterexample for C9 as stated: the JSON body null has no message
field, yet the relay answers 500 (destructuring null throws before the
validation check), not 400. -/
theorem c9_counterexample :
    relayPost (("null").toList) = RelayResult.reject 500 ("Internal server error") ∧
      (500 : Nat) ≠ 400 :=
  ⟨rfl, by decide⟩

/-- C10: the thread-identifier latch stores only non-empty strings; a
falsy first candidate is skipped in favor of the next candidate in
priority order (and a falsy second in favor of the third); and when the
first truthy candidate is not a string, nothing at all is latched for that
record. -/
theorem c10_thread_latch_candidates :
    (∀ (s : ConvState) (d : Json),
      (latchThread d s = s) ∨
        (∃ t : String, t ≠ "" ∧
          latchThread d s =
            { s with threadId := some t, storedThreadId := some t } ∧
          threadCandidate d = some (Json.str t))) ∧
    (∀ d : Json, truthyOpt (jsGet d ("thread_id")) = false →
      threadCandidate d =
        jsOrJ (optChain (jsGet d ("data")) (fun x => jsGet x ("thread_id")))
          (optChain (jsGet d ("context")) (fun x => jsGet x ("thread_id")))) ∧
    (∀ d : Json,
      truthyOpt (jsGet d ("thread_id")) = false →
      truthyOpt (optChain (jsGet d ("data")) (fun x => jsGet x ("thread_id"))) = false →
      threadCandidate d =
        optChain (jsGet d ("context")) (fun x => jsGet x ("thread_id"))) ∧
    (∀ (s : ConvState) (d : Json) (j : Json),
      threadCandidate d = some j → truthy j = true → (∀ u : String, j ≠ Json.str u) →
      latchThread d s = s) := by
  refine ⟨?_, ?_, ?_, ?_⟩
  · intro s d
    unfold latchThread
    split_ifs with h1
    · exact Or.inl rfl
    · rcases hc : threadCandidate d with _ | j
      · exact Or.inl rfl
      · cases j with
        | str t =>
          dsimp only
          split_ifs with h2
          · exact Or.inl rfl
          · exact Or.inr ⟨t, fun he => h2 (by rw [he]; rfl), rfl, rfl⟩
        | null => exact Or.inl rfl
        | bool b => exact Or.inl rfl
        | num l z => exact Or.inl rfl
        | arr xs => exact Or.inl rfl
        | obj fs => exact Or.inl rfl
  · intro d h
    unfold threadCandidate jsOrJ
    rw [h]
    simp
  · intro d h1 h2
    unfold threadCandidate jsOrJ
    rw [h1, h2]
    simp
  · intro s d j hc htr hstr
    unfold latchThread
    split_ifs
    · rfl
    · rw [hc]
      cases j with
      | str t => exact absurd rfl (hstr t)
      | null => rfl
      | bool b => rfl
      | num l z => rfl
      | arr xs => rfl
      | obj fs => rfl

/-- Witness for C10: the latch-only-non-empty part at a concrete state and
record; the skip-falsy parts at a record whose first two candidates are an
empty string and an absent field; the non-string part at a record whose
first truthy candidate is a number. -/
theorem c10_thread_latch_candidates_witness :
    ((latchThread (Json.obj [(("thread_id") , Json.str ("x"))]) initialState = initialState) ∨
      (∃ t : String, t ≠ "" ∧
        latchThread (Json.obj [(("thread_id") , Json.str ("x"))]) initialState =
          { initialState with threadId := some t, storedThreadId := some t } ∧
        threadCandidate (Json.obj [(("thread_id") , Json.str ("x"))]) = some (Json.str t))) ∧
    (threadCandidate (Json.obj [(("thread_id") , Json.str (""))]) =
      jsOrJ (optChain (jsGet (Json.obj [(("thread_id") , Json.str (""))]) ("data"))
          (fun x => jsGet x ("thread_id")))
        (optChain (jsGet (Json.obj [(("thread_id") , Json.str (""))]) ("context"))
          (fun x => jsGet x ("thread_id")))) ∧
    (threadCandidate (Json.obj [(("thread_id") , Json.str (""))]) =
      optChain (jsGet (Json.obj [(("thread_id") , Json.str (""))]) ("context"))
        (fun x => jsGet x ("thread_id"))) ∧
    (latchThread (Json.obj [(("thread_id") , Json.num ("5") false)]) initialState =
      initialState) := by
  refine ⟨?_, ?_, ?_, ?_⟩
  · exact c10_thread_latch_candidates.1 initialState (Json.obj [(("thread_id") , Json.str ("x"))])
  · exact c10_thread_latch_candidates.2.1 (Json.obj [(("thread_id") , Json.str (""))]) rfl
  · exact c10_thread_latch_candidates.2.2.1 (Json.obj [(("thread_id") , Json.str (""))]) rfl rfl
  · exact c10_thread_latch_candidates.2.2.2 initialState
      (Json.obj [(("thread_id") , Json.num ("5") false)]) (Json.num ("5") false) rfl rfl
      (fun u h => Json.noConfusion h)

/-! Shape of the message list under the parser: every mutation appends to
the content of the assistant message and leaves everything else alone. -/

theorem appMap_zero (aid : Nat) (l : List Message) : appMap aid ("") l = l := by
  induction l with
  | nil => rfl
  | cons m ms ih =>
    unfold appMap at ih ⊢
    simp only [List.map_cons, ih]
    split_ifs with h
    · simp
    · rfl

theorem appMap_appMap (aid : Nat) (t u : String) (l : List Message) :
    appMap aid u (appMap aid t l) = appMap aid (t ++ u) l := by
  induction l with
  | nil => rfl
  | cons m ms ih =>
    unfold appMap at ih ⊢
    simp only [List.map_cons, ih]
    split_ifs with h
    · simp [h, String.append_assoc]
    · simp [h]

theorem appendToMsg_messages (aid : Nat) (s : ConvState) (txt : String) :
    (appendToMsg aid s txt).messages = appMap aid txt s.messages := rfl

theorem clDelta_shape (aid : Nat) (d : Json) (s : ConvState) :
    ∃ t : String, (clDelta aid d s).messages = appMap aid t s.messages := by
  unfold clDelta
  split_ifs
  · exact ⟨jsToString ((deltaContent d).getD Json.null), rfl⟩
  · exact ⟨("") , (appMap_zero aid s.messages).symm⟩

theorem clContent_shape (aid : Nat) (d : Json) (s : ConvState) :
    ∃ t : String, (clContent aid d s).messages = appMap aid t s.messages := by
  unfold clContent
  split_ifs
  · exact ⟨jsToString ((jsGet d ("content")).getD Json.null), rfl⟩
  · exact ⟨("") , (appMap_zero aid s.messages).symm⟩

theorem clMsgDelta_shape (aid : Nat) (d : Json) (s : ConvState) :
    ∃ t : String, (clMsgDelta aid d s).messages = appMap aid t s.messages := by
  unfold clMsgDelta
  split_ifs
  · exact ⟨jsToString ((dataDataContent d).getD Json.null), rfl⟩
  · exact ⟨("") , (appMap_zero aid s.messages).symm⟩

theorem applyClauses_shape (aid : Nat) (d : Json) (s : ConvState) :
    ∃ t : String, (applyClauses aid d s).messages = appMap aid t s.messages := by
  obtain ⟨t1, h1⟩ := clDelta_shape aid d s
  obtain ⟨t2, h2⟩ := clContent_shape aid d (clDelta aid d s)
  obtain ⟨t3, h3⟩ := clMsgDelta_shape aid d (clContent aid d (clDelta aid d s))
  refine ⟨t1 ++ (t2 ++ t3), ?_⟩
  unfold applyClauses
  rw [clCompleted_messages, clStepDone_messages, clToolStart_messages, clThinking_messages,
    h3, h2, h1, appMap_appMap, appMap_appMap]

theorem applyRecord_shape (aid : Nat) (d : Json) (s : ConvState) :
    ∃ t : String, (applyRecord aid d s).messages = appMap aid t s.messages := by
  obtain ⟨t, h⟩ := applyClauses_shape aid d s
  exact ⟨t, by rw [applyRecord, latchThread_messages, h]⟩

theorem applyData_shape (aid : Nat) (s : ConvState) (p : List Char) :
    ∃ t : String, (applyData aid s p).messages = appMap aid t s.messages := by
  unfold applyData
  split
  · split_ifs
    · exact ⟨("") , (appMap_zero aid s.messages).symm⟩
    · exact ⟨String.mk p, rfl⟩
  · exact applyRecord_shape aid _ s
  · split_ifs
    · exact ⟨("") , (appMap_zero aid s.messages).symm⟩
    · exact ⟨String.mk p, rfl⟩

theorem runLines_shape (aid : Nat) (ls : List (List Char)) :
    ∀ s : ConvState, ∃ t : String,
      (runLines aid s ls).messages = appMap aid t s.messages := by
  induction ls with
  | nil => intro s; exact ⟨("") , (appMap_zero aid s.messages).symm⟩
  | cons l ls ih =>
    intro s
    rw [runLines]
    split_ifs
    · exact ih s
    · exact ih s
    · exact ⟨("") , (appMap_zero aid s.messages).symm⟩
    · obtain ⟨t1, h1⟩ := applyData_shape aid s ((jsTrim l).drop 6)
      obtain ⟨t2, h2⟩ := ih (applyData aid s ((jsTrim l).drop 6))
      exact ⟨t1 ++ t2, by rw [h2, h1, appMap_appMap]⟩
    · obtain ⟨t2, h2⟩ := ih (appendToMsg aid s (String.mk (jsTrim l) ++ ("\n" : String)))
      refine ⟨(String.mk (jsTrim l) ++ ("\n" : String)) ++ t2, ?_⟩
      rw [h2, appendToMsg_messages, appMap_appMap]

theorem feedChunks_shape (aid : Nat) (chunks : List (List Char)) :
    ∀ p : ConvState × List Char, ∃ t : String,
      (feedChunks aid p chunks).1.messages = appMap aid t p.1.messages := by
  induction chunks with
  | nil => intro p; exact ⟨("") , (appMap_zero aid p.1.messages).symm⟩
  | cons c cs ih =>
    intro p
    rw [feedChunks_cons]
    obtain ⟨t1, h1⟩ := runLines_shape aid (splitBuf (p.2 ++ c)).1 p.1
    obtain ⟨t2, h2⟩ := ih (processChunk aid p c)
    refine ⟨t1 ++ t2, ?_⟩
    rw [h2, processChunk_fst, h1, appMap_appMap]

/-! The error banner is only written by the failure branch. -/

theorem applyData_error (aid : Nat) (s : ConvState) (p : List Char) :
    (applyData aid s p).error = s.error := by
  unfold applyData
  split
  · split_ifs <;> rfl
  · rw [applyRecord, latchThread_error, applyClauses_error]
  · split_ifs <;> rfl

theorem runLines_error (aid : Nat) (ls : List (List Char)) :
    ∀ s : ConvState, (runLines aid s ls).error = s.error := by
  induction ls with
  | nil => intro s; rfl
  | cons l ls ih =>
    intro s
    rw [runLines]
    split_ifs
    · exact ih s
    · exact ih s
    · rfl
    · rw [ih, applyData_error]
    · rw [ih, appendToMsg_error]

theorem feedChunks_error (aid : Nat) (chunks : List (List Char)) :
    ∀ p : ConvState × List Char, (feedChunks aid p chunks).1.error = p.1.error := by
  induction chunks with
  | nil => intro p; rfl
  | cons c cs ih =>
    intro p
    rw [feedChunks_cons, ih, processChunk_fst, runLines_error]

/-! Helper facts about appMap on fresh message lists. -/

theorem appMap_append (aid : Nat) (t : String) (l1 l2 : List Message) :
    appMap aid t (l1 ++ l2) = appMap aid t l1 ++ appMap aid t l2 := by
  unfold appMap
  exact List.map_append _ l1 l2

theorem appMap_of_forall_ne (aid : Nat) (t : String) (l : List Message)
    (h : ∀ m ∈ l, m.id ≠ aid) : appMap aid t l = l := by
  induction l with
  | nil => rfl
  | cons m ms ih =>
    unfold appMap at ih ⊢
    simp only [List.map_cons]
    rw [if_neg (h m (List.mem_cons_self m ms))]
    rw [ih (fun m' hm' => h m' (List.mem_cons_of_mem m hm'))]

theorem appMap_filter_ne (aid : Nat) (t : String) (l : List Message) :
    (appMap aid t l).filter (fun m => m.id != aid) =
      l.filter (fun m => m.id != aid) := by
  induction l with
  | nil => rfl
  | cons m ms ih =>
    unfold appMap at ih ⊢
    simp only [List.map_cons]
    by_cases h : m.id = aid
    · simp only [if_pos h, List.filter_cons]
      simp [h, ih]
    · simp only [if_neg h, List.filter_cons]
      have hb : (m.id != aid) = true := by simp [h]
      simp [hb, ih]

/-- C6 (amended): cancelling an in-flight exchange never discards the
in-progress assistant message: whatever content it had accumulated (empty
or not) is retained in the log, and no error is shown.  The original claim
said the empty assistant message is discarded on cancellation; the
counterexample shows it is retained. -/
theorem c6_cancel_retains_message (uid aid : Nat) (txt : String) (s : ConvState)
    (chunks : List (List Char)) (hau : aid ≠ uid)
    (hfresh : ∀ m ∈ s.messages, m.id ≠ aid) :
    ∃ t : String,
      (runExchange uid aid txt s chunks EndKind.aborted).messages =
        s.messages ++
          [{ id := uid, role := Role.user, content := txt },
           { id := aid, role := Role.assistant, content := t }] ∧
      (runExchange uid aid txt s chunks EndKind.aborted).error = none := by
  obtain ⟨t, h⟩ := feedChunks_shape aid chunks (startExchange uid aid txt s, ([] : List Char))
  refine ⟨t, ?_, ?_⟩
  · show (exchangeFeed uid aid txt s chunks).1.messages = _
    rw [exchangeFeed, h]
    show appMap aid t (s.messages ++ _) = _
    rw [appMap_append, appMap_of_forall_ne aid t s.messages hfresh]
    unfold appMap
    simp [hau, Ne.symm hau]
  · show (exchangeFeed uid aid txt s chunks).1.error = none
    rw [exchangeFeed, feedChunks_error]
    rfl

/-- Witness for C6 at a concrete cancelled exchange with partial
content. -/
theorem c6_cancel_retains_message_witness :
    ∃ t : String,
      (runExchange 1 2 ("hi") initialState [("data: Hello\n").toList]
          EndKind.aborted).messages =
        initialState.messages ++
          [{ id := 1, role := Role.user, content := ("hi") },
           { id := 2, role := Role.assistant, content := t }] ∧
      (runExchange 1 2 ("hi") initialState [("data: Hello\n").toList]
          EndKind.aborted).error = none :=
  c6_cancel_retains_message 1 2 ("hi") initialState [("data: Hello\n").toList]
    (by decide) (by intro m hm; simp [initialState] at hm)

/-- Counterexample for C6 as stated: cancelling before any content has
been appended does not discard the assistant message; the empty message
stays in the log, refuting the only-if direction of the claim. -/
theorem c6_counterexample :
    (runExchange 1 2 ("hi") initialState [] EndKind.aborted).messages =
      [{ id := 1, role := Role.user, content := ("hi") },
       { id := 2, role := Role.assistant, content := ("") }] := rfl

/-- C3 (amended): on a mid-stream non-abort failure the client sets the
error banner and removes the in-progress assistant message
unconditionally, even when content had already been appended to it; only
the user message of the exchange survives.  The original claim said a
partial assistant message is retained; the counterexample shows it is
removed. -/
theorem c3_failure_removes_message (uid aid : Nat) (txt : String) (s : ConvState)
    (chunks : List (List Char)) (m : String) (hau : aid ≠ uid)
    (hfresh : ∀ m' ∈ s.messages, m'.id ≠ aid) :
    (runExchange uid aid txt s chunks (EndKind.failed m)).messages =
      s.messages ++ [{ id := uid, role := Role.user, content := txt }] ∧
    (runExchange uid aid txt s chunks (EndKind.failed m)).error =
      some (if m.isEmpty then ("Failed to send message" : String) else m) := by
  obtain ⟨t, h⟩ := feedChunks_shape aid chunks (startExchange uid aid txt s, ([] : List Char))
  constructor
  · show ((exchangeFeed uid aid txt s chunks).1.messages.filter (fun msg => msg.id != aid)) = _
    rw [exchangeFeed, h]
    show (appMap aid t (s.messages ++ _)).filter (fun msg => msg.id != aid) = _
    rw [appMap_filter_ne, List.filter_append]
    have h1 : s.messages.filter (fun msg => msg.id != aid) = s.messages := by
      rw [List.filter_eq_self]
      intro a ha
      simpa using hfresh a ha
    rw [h1]
    simp [hau, Ne.symm hau]
  · rfl

/-- Witness for C3 at a concrete failing exchange. -/
theorem c3_failure_removes_message_witness :
    (runExchange 1 2 ("hi") initialState [("data: Hello\n").toList]
        (EndKind.failed ("boom"))).messages =
      initialState.messages ++ [{ id := 1, role := Role.user, content := ("hi") }] ∧
    (runExchange 1 2 ("hi") initialState [("data: Hello\n").toList]
        (EndKind.failed ("boom"))).error =
      some (if ("boom" : String).isEmpty then ("Failed to send message" : String)
        else ("boom")) :=
  c3_failure_removes_message 1 2 ("hi") initialState [("data: Hello\n").toList] ("boom")
    (by decide) (by intro m hm; simp [initialState] at hm)

/-- Counterexample for C3 as stated: content Hello had been appended to
the assistant message when the exchange failed, yet the final log has lost
the assistant message (the catch filter removes it unconditionally), while
the error is displayed. -/
theorem c3_counterexample :
    getMsgContent 2 ((exchangeFeed 1 2 ("hi") initialState
        [("data: Hello\n").toList]).1) = some ("Hello") ∧
    (runExchange 1 2 ("hi") initialState [("data: Hello\n").toList]
        (EndKind.failed ("boom"))).messages =
      [{ id := 1, role := Role.user, content := ("hi") }] ∧
    (runExchange 1 2 ("hi") initialState [("data: Hello\n").toList]
        (EndKind.failed ("boom"))).error = some ("boom") := by
  refine ⟨rfl, rfl, rfl⟩

/-! Append clauses seen through getMsgContent. -/

theorem find_appMap (aid : Nat) (t : String) (l : List Message) :
    ((appMap aid t l).find? (fun m => m.id == aid)).map (fun m => m.content) =
      (l.find? (fun m => m.id == aid)).map (fun m => m.content ++ t) := by
  induction l with
  | nil => rfl
  | cons m ms ih =>
    unfold appMap at ih ⊢
    simp only [List.map_cons]
    by_cases h : m.id = aid
    · rw [if_pos h]
      simp only [List.find?]
      have hb : (({ id := m.id, role := m.role, content := m.content ++ t } : Message).id
          == aid) = true := by simp [h]
      rw [hb]
      rfl
    · rw [if_neg h]
      simp only [List.find?]
      have hb : (m.id == aid) = false := by simp [h]
      rw [hb]
      exact ih

theorem getMsgContent_appendToMsg (aid : Nat) (s : ConvState) (txt : String) :
    getMsgContent aid (appendToMsg aid s txt) =
      (getMsgContent aid s).map (fun x => x ++ txt) := by
  unfold getMsgContent
  rw [appendToMsg_messages, find_appMap, Option.map_map]
  rfl

theorem getMsgContent_congr (aid : Nat) (s1 s2 : ConvState)
    (h : s1.messages = s2.messages) : getMsgContent aid s1 = getMsgContent aid s2 := by
  unfold getMsgContent
  rw [h]

/-- C8: two delta-content records append in arrival order, giving exactly
Hi there from an empty assistant message; in general a parsed record whose
nested choice/delta content is a non-empty string c, and which triggers no
other append clause, appends exactly c to the current assistant message. -/
theorem c8_delta_append :
    getMsgContent 2 ((feedChunks 2
      ({ initialState with messages :=
          [{ id := 2, role := Role.assistant, content := ("" : String) }] }, [])
      [("data: \x7b\"choices\":[\x7b\"delta\":\x7b\"content\":\"Hi\"\x7d\x7d]\x7d\ndata: \x7b\"choices\":[\x7b\"delta\":\x7b\"content\":\" there\"\x7d\x7d]\x7d\n").toList]).1)
        = some ("Hi there") ∧
    (∀ (aid : Nat) (s : ConvState) (j : Json) (c : String),
      deltaContent j = some (Json.str c) → c ≠ "" →
      truthyOpt (jsGet j ("content")) = false →
      (eventIs j ("message.delta") && truthyOpt (dataDataContent j)) = false →
      getMsgContent aid (applyRecord aid j s) =
        (getMsgContent aid s).map (fun x => x ++ c)) := by
  constructor
  · rfl
  · intro aid s j c hdelta hc hcontent hmsgdelta
    have h1 : clDelta aid j s = appendToMsg aid s c := by
      unfold clDelta
      rw [hdelta]
      have hce : c.isEmpty = false := by
        rw [Bool.eq_false_iff]
        intro hcc
        exact hc ((String.isEmpty_iff c).mp hcc)
      rw [if_pos (by simp [truthyOpt, truthy, hce])]
      rfl
    have h2 : ∀ s' : ConvState, clContent aid j s' = s' := by
      intro s'
      unfold clContent
      rw [hcontent]
      rfl
    have h3 : ∀ s' : ConvState, clMsgDelta aid j s' = s' := by
      intro s'
      unfold clMsgDelta
      rw [hmsgdelta]
      rfl
    have hm : (applyRecord aid j s).messages = (appendToMsg aid s c).messages := by
      rw [applyRecord, latchThread_messages]
      unfold applyClauses
      rw [clCompleted_messages, clStepDone_messages, clToolStart_messages,
        clThinking_messages, h3, h2, h1]
    rw [getMsgContent_congr aid _ _ hm, getMsgContent_appendToMsg]

/-- Witness for C8's general clause at a concrete delta record. -/
theorem c8_delta_append_witness :
    getMsgContent 2 (applyRecord 2
      (Json.obj [(("choices") , Json.arr [Json.obj [(("delta") ,
        Json.obj [(("content") , Json.str ("Hi"))])]])])
      { initialState with messages :=
          [{ id := 2, role := Role.assistant, content := ("" : String) }] }) =
      (getMsgContent 2 { initialState with messages :=
          [{ id := 2, role := Role.assistant, content := ("" : String) }] }).map
        (fun x => x ++ ("Hi")) :=
  c8_delta_append.2 2
    { initialState with messages :=
        [{ id := 2, role := Role.assistant, content := ("" : String) }] }
    (Json.obj [(("choices") , Json.arr [Json.obj [(("delta") ,
      Json.obj [(("content") , Json.str ("Hi"))])]])])
    ("Hi") rfl (by decide) rfl rfl

/-! The incremental UTF-8 decoder: homomorphism over chunking, and
roundtrip with the encoder on valid scalar sequences. -/

theorem decodeBytes_append (a : List Nat) : ∀ (st : DecState) (b : List Nat),
    decodeBytes st (a ++ b) =
      ((decodeBytes st a).1 ++ (decodeBytes (decodeBytes st a).2 b).1,
       (decodeBytes (decodeBytes st a).2 b).2) := by
  induction a with
  | nil => intro st b; rfl
  | cons x xs ih =>
    intro st b
    simp only [List.cons_append, decodeBytes]
    rw [show xs.append b = xs ++ b from rfl, ih]
    simp [List.append_assoc]

theorem utf8Step_init (b : Nat) : utf8Step decInit b = utf8Start b := by
  unfold utf8Step
  dsimp only [decInit]
  rw [if_pos rfl]

theorem utf8Start_ascii (b : Nat) (h : b ≤ 0x7f) : utf8Start b = ([b], decInit) := by
  unfold utf8Start
  rw [if_pos h]

theorem utf8Start_two (b : Nat) (h1 : 0xc2 ≤ b) (h2 : b ≤ 0xdf) :
    utf8Start b =
      ([], { needed := 1, seen := 0, cp := b - 0xc0, lo := 0x80, hi := 0xbf }) := by
  unfold utf8Start
  rw [if_neg (by omega), if_pos ⟨h1, h2⟩]

theorem utf8Start_three (b : Nat) (h1 : 0xe0 ≤ b) (h2 : b ≤ 0xef) :
    utf8Start b =
      ([], { needed := 2, seen := 0, cp := b - 0xe0,
             lo := if b = 0xe0 then 0xa0 else 0x80,
             hi := if b = 0xed then 0x9f else 0xbf }) := by
  unfold utf8Start
  rw [if_neg (by omega), if_neg (by omega), if_pos ⟨h1, h2⟩]

theorem utf8Start_four (b : Nat) (h1 : 0xf0 ≤ b) (h2 : b ≤ 0xf4) :
    utf8Start b =
      ([], { needed := 3, seen := 0, cp := b - 0xf0,
             lo := if b = 0xf0 then 0x90 else 0x80,
             hi := if b = 0xf4 then 0x8f else 0xbf }) := by
  unfold utf8Start
  rw [if_neg (by omega), if_neg (by omega), if_neg (by omega), if_pos ⟨h1, h2⟩]

theorem utf8Step_cont (st : DecState) (b : Nat) (h0 : ¬ st.needed = 0)
    (hlo : st.lo ≤ b) (hhi : b ≤ st.hi) :
    utf8Step st b =
      if st.seen + 1 = st.needed then ([st.cp * 64 + (b - 0x80)], decInit)
      else ([], { needed := st.needed, seen := st.seen + 1,
                  cp := st.cp * 64 + (b - 0x80), lo := 0x80, hi := 0xbf }) := by
  unfold utf8Step
  rw [if_neg h0, if_pos ⟨hlo, hhi⟩]

theorem decodeBytes_cons (st : DecState) (b : Nat) (bs : List Nat) :
    decodeBytes st (b :: bs) =
      ((utf8Step st b).1 ++ (decodeBytes (utf8Step st b).2 bs).1,
       (decodeBytes (utf8Step st b).2 bs).2) := rfl

theorem decode_encodeChar (c : Nat) (h : ValidScalar c) (rest : List Nat) :
    decodeBytes decInit (encodeChar c ++ rest) =
      (c :: (decodeBytes decInit rest).1, (decodeBytes decInit rest).2) := by
  obtain ⟨hlt, hsur⟩ := h
  by_cases h1 : c ≤ 0x7f
  · have he : encodeChar c = [c] := by unfold encodeChar; rw [if_pos h1]
    have e0 : utf8Step decInit c = ([c], decInit) := by
      rw [utf8Step_init]
      exact utf8Start_ascii c h1
    rw [he]
    simp only [List.cons_append, List.nil_append]
    rw [decodeBytes_cons, e0]
    simp
  · by_cases h2 : c ≤ 0x7ff
    · have he : encodeChar c = [0xc0 + c / 64, 0x80 + c % 64] := by
        unfold encodeChar
        rw [if_neg h1, if_pos h2]
      have e0 : utf8Step decInit (0xc0 + c / 64) =
          ([], { needed := 1, seen := 0, cp := 0xc0 + c / 64 - 0xc0,
                 lo := 0x80, hi := 0xbf }) := by
        rw [utf8Step_init]
        exact utf8Start_two _ (by omega) (by omega)
      have e1 : utf8Step
          { needed := 1, seen := 0, cp := 0xc0 + c / 64 - 0xc0, lo := 0x80, hi := 0xbf }
          (0x80 + c % 64) = ([c], decInit) := by
        unfold utf8Step
        dsimp only
        rw [if_neg (by omega), if_pos (by constructor <;> omega), if_pos (by omega)]
        have hcp : (0xc0 + c / 64 - 0xc0) * 64 + (0x80 + c % 64 - 0x80) = c := by omega
        rw [hcp]
      rw [he]
      simp only [List.cons_append, List.nil_append]
      rw [decodeBytes_cons, e0]
      dsimp only
      rw [decodeBytes_cons, e1]
      simp
    · by_cases h3 : c ≤ 0xffff
      · have he : encodeChar c =
            [0xe0 + c / 4096, 0x80 + (c / 64) % 64, 0x80 + c % 64] := by
          unfold encodeChar
          rw [if_neg h1, if_neg h2, if_pos h3]
        have e0 : utf8Step decInit (0xe0 + c / 4096) =
            ([], { needed := 2, seen := 0, cp := 0xe0 + c / 4096 - 0xe0,
                   lo := if 0xe0 + c / 4096 = 0xe0 then 0xa0 else 0x80,
                   hi := if 0xe0 + c / 4096 = 0xed then 0x9f else 0xbf }) := by
          rw [utf8Step_init]
          exact utf8Start_three _ (by omega) (by omega)
        have e1 : utf8Step
            { needed := 2, seen := 0, cp := 0xe0 + c / 4096 - 0xe0,
              lo := if 0xe0 + c / 4096 = 0xe0 then 0xa0 else 0x80,
              hi := if 0xe0 + c / 4096 = 0xed then 0x9f else 0xbf }
            (0x80 + (c / 64) % 64) =
            ([], { needed := 2, seen := 1, cp := c / 64, lo := 0x80, hi := 0xbf }) := by
          unfold utf8Step
          dsimp only
          rw [if_neg (by omega),
            if_pos (by constructor <;> (split_ifs <;> omega)),
            if_neg (by omega)]
          have hcp : (0xe0 + c / 4096 - 0xe0) * 64 + (0x80 + (c / 64) % 64 - 0x80)
              = c / 64 := by omega
          rw [hcp]
        have e2 : utf8Step
            { needed := 2, seen := 1, cp := c / 64, lo := 0x80, hi := 0xbf }
            (0x80 + c % 64) = ([c], decInit) := by
          unfold utf8Step
          dsimp only
          rw [if_neg (by omega), if_pos (by constructor <;> omega), if_pos (by omega)]
          have hcp : (c / 64) * 64 + (0x80 + c % 64 - 0x80) = c := by omega
          rw [hcp]
        rw [he]
        simp only [List.cons_append, List.nil_append]
        rw [decodeBytes_cons, e0]
        dsimp only
        rw [decodeBytes_cons, e1]
        dsimp only
        rw [decodeBytes_cons, e2]
        simp
      · have he : encodeChar c =
            [0xf0 + c / 262144, 0x80 + (c / 4096) % 64, 0x80 + (c / 64) % 64,
             0x80 + c % 64] := by
          unfold encodeChar
          rw [if_neg h1, if_neg h2, if_neg h3]
        have e0 : utf8Step decInit (0xf0 + c / 262144) =
            ([], { needed := 3, seen := 0, cp := 0xf0 + c / 262144 - 0xf0,
                   lo := if 0xf0 + c / 262144 = 0xf0 then 0x90 else 0x80,
                   hi := if 0xf0 + c / 262144 = 0xf4 then 0x8f else 0xbf }) := by
          rw [utf8Step_init]
          exact utf8Start_four _ (by omega) (by omega)
        have e1 : utf8Step
            { needed := 3, seen := 0, cp := 0xf0 + c / 262144 - 0xf0,
              lo := if 0xf0 + c / 262144 = 0xf0 then 0x90 else 0x80,
              hi := if 0xf0 + c / 262144 = 0xf4 then 0x8f else 0xbf }
            (0x80 + (c / 4096) % 64) =
            ([], { needed := 3, seen := 1, cp := c / 4096, lo := 0x80, hi := 0xbf }) := by
          unfold utf8Step
          dsimp only
          rw [if_neg (by omega),
            if_pos (by constructor <;> (split_ifs <;> omega)),
            if_neg (by omega)]
          have hcp : (0xf0 + c / 262144 - 0xf0) * 64 + (0x80 + (c / 4096) % 64 - 0x80)
              = c / 4096 := by omega
          rw [hcp]
        have e2 : utf8Step
            { needed := 3, seen := 1, cp := c / 4096, lo := 0x80, hi := 0xbf }
            (0x80 + (c / 64) % 64) =
            ([], { needed := 3, seen := 2, cp := c / 64, lo := 0x80, hi := 0xbf }) := by
          unfold utf8Step
          dsimp only
          rw [if_neg (by omega), if_pos (by constructor <;> omega), if_neg (by omega)]
          have hcp : (c / 4096) * 64 + (0x80 + (c / 64) % 64 - 0x80) = c / 64 := by omega
          rw [hcp]
        have e3 : utf8Step
            { needed := 3, seen := 2, cp := c / 64, lo := 0x80, hi := 0xbf }
            (0x80 + c % 64) = ([c], decInit) := by
          unfold utf8Step
          dsimp only
          rw [if_neg (by omega), if_pos (by constructor <;> omega), if_pos (by omega)]
          have hcp : (c / 64) * 64 + (0x80 + c % 64 - 0x80) = c := by omega
          rw [hcp]
        rw [he]
        simp only [List.cons_append, List.nil_append]
        rw [decodeBytes_cons, e0]
        dsimp only
        rw [decodeBytes_cons, e1]
        dsimp only
        rw [decodeBytes_cons, e2]
        dsimp only
        rw [decodeBytes_cons, e3]
        simp

theorem encodeAll_append (a b : List Nat) :
    encodeAll (a ++ b) = encodeAll a ++ encodeAll b := by
  unfold encodeAll
  induction a with
  | nil => rfl
  | cons x xs ih => simp only [List.cons_append, List.flatMap_cons, ih, List.append_assoc]

theorem decode_encodeAll : ∀ (s : List Nat), (∀ c ∈ s, ValidScalar c) →
    ∀ rest : List Nat,
      decodeBytes decInit (encodeAll s ++ rest) =
        (s ++ (decodeBytes decInit rest).1, (decodeBytes decInit rest).2) := by
  intro s
  induction s with
  | nil => intro _ rest; rfl
  | cons c cs ih =>
    intro h rest
    have he : encodeAll (c :: cs) = encodeChar c ++ encodeAll cs := by
      unfold encodeAll
      simp [List.flatMap_cons]
    rw [he, List.append_assoc, decode_encodeChar c (h c (by simp)) (encodeAll cs ++ rest),
      ih (fun x hx => h x (by simp [hx])) rest]
    rfl

theorem decode_encodeAll_closed (s : List Nat) (h : ∀ c ∈ s, ValidScalar c) :
    decodeBytes decInit (encodeAll s) = (s, decInit) := by
  have h2 := decode_encodeAll s h []
  rw [show decodeBytes decInit ([] : List Nat) = (([] : List Nat), decInit) from rfl] at h2
  simpa using h2

theorem stripBom_true (out : List Nat) : stripBom true out = (out, true) := rfl

theorem stripBom_append (flag : Bool) (a b : List Nat) :
    stripBom flag (a ++ b) =
      ((stripBom flag a).1 ++ (stripBom (stripBom flag a).2 b).1,
       (stripBom (stripBom flag a).2 b).2) := by
  cases flag with
  | true => simp [stripBom]
  | false =>
    cases a with
    | nil => simp [stripBom]
    | cons c rest =>
      simp only [List.cons_append, stripBom]
      split_ifs with hc
      · simp [stripBom]
      · simp [stripBom]

theorem tdecode_append (a : List Nat) (st : TDecState) (b : List Nat) :
    tdecode st (a ++ b) =
      ((tdecode st a).1 ++ (tdecode (tdecode st a).2 b).1,
       (tdecode (tdecode st a).2 b).2) := by
  simp only [tdecode]
  rw [decodeBytes_append a st.inner b]
  dsimp only
  rw [stripBom_append st.bomSeen (decodeBytes st.inner a).1
    (decodeBytes (decodeBytes st.inner a).2 b).1]

theorem stripBom_no_bom (l : List Nat) (h : l.head? ≠ some 0xfeff) :
    stripBom false l = (l, !l.isEmpty) := by
  cases l with
  | nil => rfl
  | cons c rest =>
    unfold stripBom
    dsimp only
    rw [if_neg (fun he => h (by rw [List.head?_cons, he]))]
    rfl

theorem relayGo_length : ∀ (chunks : List (List Nat)) (st : TDecState),
    (relayGo st chunks).length = chunks.length := by
  intro chunks
  induction chunks with
  | nil => intro st; rfl
  | cons c cs ih => intro st; simp [relayGo, ih]

theorem relayGo_flatten : ∀ (chunks : List (List Nat)) (st : TDecState),
    (relayGo st chunks).flatten = encodeAll (tdecode st chunks.flatten).1 := by
  intro chunks
  induction chunks with
  | nil =>
    intro st
    rcases st with ⟨inner, bom⟩
    cases bom <;> rfl
  | cons c cs ih =>
    intro st
    simp only [relayGo, List.flatten_cons, List.flatten]
    rw [ih, tdecode_append c st cs.flatten, encodeAll_append]

/-- C4 (amended): the relay decodes each upstream chunk with a stateful
default text decoder and enqueues its re-encoding before reading the next
chunk: it emits exactly one downstream chunk per upstream chunk, in order,
and whenever the upstream byte stream is well-formed UTF-8 and does not
begin with a byte-order mark, the concatenation of the enqueued bytes
equals the concatenation of the upstream bytes.  The per-chunk bytes
enqueued are not always identical to the incoming chunk: a multi-byte
sequence split across a chunk boundary is held back and re-emitted with
the following chunk, ill-formed bytes are replaced, and a stream-leading
U+FEFF is dropped by the decoder (ignoreBOM defaults to false). -/
theorem c4_relay_stream_preservation (chunks : List (List Nat)) (scalars : List Nat)
    (hv : ∀ c ∈ scalars, ValidScalar c) (he : chunks.flatten = encodeAll scalars)
    (hb : scalars.head? ≠ some 0xfeff) :
    (relayChunks chunks).length = chunks.length ∧
      (relayChunks chunks).flatten = chunks.flatten := by
  refine ⟨relayGo_length chunks tdecInit, ?_⟩
  rw [relayChunks, relayGo_flatten chunks tdecInit, he]
  rw [show tdecode tdecInit (encodeAll scalars) =
      ((stripBom false (decodeBytes decInit (encodeAll scalars)).1).1,
       { inner := (decodeBytes decInit (encodeAll scalars)).2,
         bomSeen := (stripBom false (decodeBytes decInit (encodeAll scalars)).1).2 })
    from rfl]
  rw [decode_encodeAll_closed scalars hv, stripBom_no_bom scalars hb]

/-- Witness for C4 with the bytes of H followed by a two-byte character
arriving in its own chunk. -/
theorem c4_relay_stream_preservation_witness :
    (relayChunks [[0x48], [0xc3, 0xa9]]).length = ([[0x48], [0xc3, 0xa9]] : List (List Nat)).length ∧
      (relayChunks [[0x48], [0xc3, 0xa9]]).flatten =
        ([[0x48], [0xc3, 0xa9]] : List (List Nat)).flatten :=
  c4_relay_stream_preservation [[0x48], [0xc3, 0xa9]] [0x48, 0xe9]
    (by decide) (by decide) (by decide)

/-- Counterexample for C4 as stated: when the two bytes of one character
arrive in separate chunks, the relay enqueues an empty chunk first and both
bytes with the second chunk, so the bytes enqueued for the first chunk are
not identical to that chunk's bytes. -/
theorem c4_counterexample :
    relayChunks [[0xc3], [0xa9]] = [[], [0xc3, 0xa9]] ∧
      relayChunks [[0xc3], [0xa9]] ≠ [[0xc3], [0xa9]] := by
  exact ⟨by decide, by decide⟩

/-! Chunk-boundary independence: the buffer discipline.  splitBuf of a
concatenation glues at the residual, the residual never holds a newline,
and processing distributes over the glued line lists. -/

theorem splitBuf_rest_no_newline : ∀ t : List Char, '\n' ∉ (splitBuf t).2 := by
  intro t
  induction t with
  | nil => simp [splitBuf]
  | cons c cs ih =>
    rcases hp : splitBuf cs with ⟨l1, r1⟩
    rw [hp] at ih
    simp only [splitBuf, hp]
    split_ifs with hc
    · exact ih
    · cases l1 with
      | nil =>
        show '\n' ∉ c :: r1
        simp only [List.mem_cons, not_or]
        exact ⟨fun he => hc he.symm, ih⟩
      | cons l ls =>
        show '\n' ∉ r1
        exact ih

theorem splitBuf_no_newline : ∀ t : List Char, '\n' ∉ t → splitBuf t = ([], t) := by
  intro t
  induction t with
  | nil => intro _; rfl
  | cons c cs ih =>
    intro h
    have hc : ¬ c = '\n' := fun he => h (he ▸ List.mem_cons_self c cs)
    have hcs : '\n' ∉ cs := fun hm => h (List.mem_cons_of_mem c hm)
    simp only [splitBuf, ih hcs]
    rw [if_neg hc]

theorem splitBuf_append (x y : List Char) :
    splitBuf (x ++ y) =
      ((splitBuf x).1 ++ (splitBuf ((splitBuf x).2 ++ y)).1,
       (splitBuf ((splitBuf x).2 ++ y)).2) := by
  induction x with
  | nil => simp [splitBuf]
  | cons c x' ih =>
    rcases hx : splitBuf x' with ⟨l', r'⟩
    rw [hx] at ih
    dsimp only at ih
    rcases hy : splitBuf (r' ++ y) with ⟨ly, ry⟩
    rw [hy] at ih
    by_cases hc : c = '\n'
    · subst hc
      show splitBuf ('\n' :: (x' ++ y)) = _
      simp only [splitBuf, ih, hx]
      simp [hy]
    · show splitBuf (c :: (x' ++ y)) = _
      simp only [splitBuf, ih, hx, if_neg hc]
      cases l' with
      | nil =>
        simp only [List.nil_append, List.cons_append, splitBuf, hy, if_neg hc]
        cases ly with
        | nil => simp [hy]
        | cons h t => simp [hy]
      | cons h' t' =>
        simp [hy]

theorem runLines_append (aid : Nat) (l2 : List (List Char)) :
    ∀ (l1 : List (List Char)) (s : ConvState),
      (∀ l ∈ l1, jsTrim l ≠ ("data: [DONE]").toList) →
      runLines aid s (l1 ++ l2) = runLines aid (runLines aid s l1) l2 := by
  intro l1
  induction l1 with
  | nil => intro s _; rfl
  | cons l ls ih =>
    intro s h
    have hl : jsTrim l ≠ ("data: [DONE]").toList := h l (List.mem_cons_self l ls)
    have hls : ∀ x ∈ ls, jsTrim x ≠ ("data: [DONE]").toList :=
      fun x hx => h x (List.mem_cons_of_mem l hx)
    simp only [List.cons_append, runLines]
    split_ifs with h1 h2 h3 h4
    · exact ih s hls
    · exact ih s hls
    · exfalso
      apply hl
      have htd := List.take_append_drop 6 (jsTrim l)
      rw [h3, h4] at htd
      rw [← htd]
      rfl
    · exact ih (applyData aid s ((jsTrim l).drop 6)) hls
    · exact ih (appendToMsg aid s (String.mk (jsTrim l) ++ ("\n" : String))) hls

theorem feedChunks_collapse (aid : Nat) :
    ∀ (chunks : List (List Char)) (s : ConvState) (b : List Char),
      '\n' ∉ b →
      (∀ l ∈ (splitBuf (b ++ chunks.flatten)).1, jsTrim l ≠ ("data: [DONE]").toList) →
      feedChunks aid (s, b) chunks =
        (runLines aid s (splitBuf (b ++ chunks.flatten)).1,
         (splitBuf (b ++ chunks.flatten)).2) := by
  intro chunks
  induction chunks with
  | nil =>
    intro s b hb _
    rw [List.flatten_nil, List.append_nil, splitBuf_no_newline b hb]
    rfl
  | cons c cs ih =>
    intro s b hb hd
    have hassoc : b ++ (c :: cs).flatten = (b ++ c) ++ cs.flatten := by
      rw [List.flatten_cons, ← List.append_assoc]
    rw [hassoc] at hd ⊢
    rw [splitBuf_append (b ++ c) cs.flatten] at hd ⊢
    have hd1 : ∀ l ∈ (splitBuf (b ++ c)).1, jsTrim l ≠ ("data: [DONE]").toList :=
      fun l hl => hd l (List.mem_append_left _ hl)
    have hd2 : ∀ l ∈ (splitBuf ((splitBuf (b ++ c)).2 ++ cs.flatten)).1,
        jsTrim l ≠ ("data: [DONE]").toList :=
      fun l hl => hd l (List.mem_append_right _ hl)
    have hb2 : '\n' ∉ (splitBuf (b ++ c)).2 := splitBuf_rest_no_newline (b ++ c)
    rw [feedChunks_cons,
      show processChunk aid (s, b) c =
        (runLines aid s (splitBuf (b ++ c)).1, (splitBuf (b ++ c)).2) from rfl,
      ih (runLines aid s (splitBuf (b ++ c)).1) (splitBuf (b ++ c)).2 hb2 hd2,
      runLines_append aid _ _ s hd1]

/-! Bridging from byte chunks to text chunks via the stateful decoder. -/

theorem charChunks_flatten : ∀ (chunks : List (List Nat)) (st : TDecState),
    (charChunks st chunks).flatten = ((tdecode st chunks.flatten).1).map Char.ofNat := by
  intro chunks
  induction chunks with
  | nil =>
    intro st
    show ([] : List Char) = ((tdecode st []).1).map Char.ofNat
    rcases st with ⟨inner, bom⟩
    cases bom <;> rfl
  | cons c cs ih =>
    intro st
    simp only [charChunks, List.flatten_cons, ih, List.flatten_cons]
    rw [tdecode_append c st cs.flatten]
    simp [List.map_append]

theorem feedBytes_eq_feedChunks (aid : Nat) :
    ∀ (chunks : List (List Nat)) (p : (ConvState × List Char) × TDecState),
      List.foldl (feedBytesStep aid) p chunks =
        (feedChunks aid p.1 (charChunks p.2 chunks),
         (tdecode p.2 chunks.flatten).2) := by
  intro chunks
  induction chunks with
  | nil =>
    intro p
    show p = (feedChunks aid p.1 [], (tdecode p.2 []).2)
    rcases p with ⟨p1, st⟩
    rcases st with ⟨inner, bom⟩
    cases bom <;> rfl
  | cons c cs ih =>
    intro p
    simp only [List.foldl_cons]
    rw [ih]
    rw [show feedBytesStep aid p c =
      (processChunk aid p.1 ((tdecode p.2 c).1.map Char.ofNat),
       (tdecode p.2 c).2) from rfl]
    rw [show charChunks p.2 (c :: cs) =
      ((tdecode p.2 c).1.map Char.ofNat) :: charChunks (tdecode p.2 c).2 cs
      from rfl]
    rw [feedChunks_cons, List.flatten_cons, tdecode_append c p.2 cs.flatten]

/-- C1 (amended): feeding a byte stream to the incremental parser in
arbitrarily-sized chunks produces exactly the same final conversation
state (message contents, phase, tool name, thread identifier, residual
buffer and decoder state) as feeding the whole stream as a single chunk,
provided the stream contains no complete data: [DONE] line.  The amendment
is forced by the counterexample: the [DONE] break skips the remaining
lines of the chunk it arrives in, which makes that one case
chunk-boundary dependent. -/
theorem c1_chunk_boundary_independence (aid : Nat) (s : ConvState)
    (chunks : List (List Nat))
    (hd : ∀ l ∈ (splitBuf (((tdecode tdecInit chunks.flatten).1).map Char.ofNat)).1,
        jsTrim l ≠ ("data: [DONE]").toList) :
    feedBytes aid s chunks = feedBytes aid s [chunks.flatten] := by
  have hsingle : ([chunks.flatten] : List (List Nat)).flatten = chunks.flatten := by
    simp
  unfold feedBytes
  rw [feedBytes_eq_feedChunks aid chunks ((s, ([] : List Char)), tdecInit),
    feedBytes_eq_feedChunks aid [chunks.flatten] ((s, ([] : List Char)), tdecInit)]
  rw [hsingle]
  have ht1 : (charChunks tdecInit chunks).flatten =
      ((tdecode tdecInit chunks.flatten).1).map Char.ofNat :=
    charChunks_flatten chunks tdecInit
  have ht2 : (charChunks tdecInit [chunks.flatten]).flatten =
      ((tdecode tdecInit chunks.flatten).1).map Char.ofNat := by
    rw [charChunks_flatten [chunks.flatten] tdecInit, hsingle]
  rw [feedChunks_collapse aid (charChunks tdecInit chunks) s [] (by simp)
      (by rw [List.nil_append, ht1]; exact hd),
    feedChunks_collapse aid (charChunks tdecInit [chunks.flatten]) s [] (by simp)
      (by rw [List.nil_append, ht2]; exact hd)]
  rw [List.nil_append, List.nil_append, ht1, ht2]

/-- Witness for C1: a stream whose two-byte character and whose data: line
are both split across the chunk boundary, against the same bytes in one
chunk. -/
theorem c1_chunk_boundary_independence_witness :
    feedBytes 2
      { initialState with messages :=
          [{ id := 2, role := Role.assistant, content := ("" : String) }] }
      [(("data: \x7b\"content\":\"caf").toList.map Char.toNat) ++ [0xc3],
       [0xa9] ++ (("\"\x7d\n").toList.map Char.toNat)] =
    feedBytes 2
      { initialState with messages :=
          [{ id := 2, role := Role.assistant, content := ("" : String) }] }
      [([(("data: \x7b\"content\":\"caf").toList.map Char.toNat) ++ [0xc3],
         [0xa9] ++ (("\"\x7d\n").toList.map Char.toNat)] : List (List Nat)).flatten] :=
  c1_chunk_boundary_independence 2
    { initialState with messages :=
        [{ id := 2, role := Role.assistant, content := ("" : String) }] }
    [(("data: \x7b\"content\":\"caf").toList.map Char.toNat) ++ [0xc3],
     [0xa9] ++ (("\"\x7d\n").toList.map Char.toNat)]
    (by decide)

/-- Counterexample for C1 as stated: the same byte stream fed as two
chunks and as one chunk yields different assistant-message content,
because the [DONE] sentinel only skips the remainder of its own chunk. -/
theorem c1_counterexample :
    getMsgContent 2 ((feedBytes 2
      { initialState with messages :=
          [{ id := 2, role := Role.assistant, content := ("" : String) }] }
      [("data: [DONE]\n").toList.map Char.toNat,
       ("data: hello\n").toList.map Char.toNat]).1.1) ≠
    getMsgContent 2 ((feedBytes 2
      { initialState with messages :=
          [{ id := 2, role := Role.assistant, content := ("" : String) }] }
      [(("data: [DONE]\n").toList.map Char.toNat) ++
        (("data: hello\n").toList.map Char.toNat)]).1.1) := by
  decide

end ChatUI

